import Mathlib

/-
Shallow embedding of the rust-gb Game Boy emulator (src/src/*.rs) and proofs
about the claims of its specification.

Conventions of the embedding:
- Rust machine integers (u8, u16, u32) are modelled as Nat.  Arithmetic that
  wraps in the source (wrapping_add, wrapping_sub, `as uN` casts, and plain
  arithmetic on uN in release builds) is modelled with explicit reductions
  modulo 2^8, 2^16 or 2^32.  Fields declared uN in the source are plain Nats
  here; theorems that quantify over states add the range hypotheses that the
  Rust types guarantee.
- Byte buffers (Vec<u8>, [u8; N]) are modelled as functions Nat -> Nat.
- Code that can panic (panic!-style aborts, assert!, todo!, index of a match
  arm that aborts) is modelled with Option: none is the panic.
- Match statements over address ranges are translated to if-chains in the
  same order as the source arms, so the selected arm is identical.
-/

/-- u8 cast / wrap-around at 8 bits. -/
def u8 (x : Nat) : Nat := x % 256

/-- u16 cast / wrap-around at 16 bits. -/
def u16 (x : Nat) : Nat := x % 65536

/-- u32 cast / wrap-around at 32 bits. -/
def u32 (x : Nat) : Nat := x % 4294967296

/-- u8 wrapping subtraction. -/
def wsub8 (x y : Nat) : Nat := (x % 256 + 256 - y % 256) % 256

/-- u16 wrapping subtraction. -/
def wsub16 (x y : Nat) : Nat := (x % 65536 + 65536 - y % 65536) % 65536

/-- u32 wrapping subtraction. -/
def wsub32 (x y : Nat) : Nat := (x % 4294967296 + 4294967296 - y % 4294967296) % 4294967296

/-- Pointwise update of a byte buffer modelled as a function. -/
def setf (f : Nat → Nat) (i v : Nat) : Nat → Nat := fun j => if j = i then v else f j

/-- Timer (src/src/timer.rs). -/
structure Timer where
  tima : Nat
  tma : Nat
  tac : Nat
  counter : Nat
  irq_timer : Bool

/-- Timer::write.  Only 0xff04..0xff07 are reachable from the MMU; the
source marks everything else unreachable!, so the identity default below is
never taken on MMU-routed calls. -/
def Timer.write (t : Timer) (addr val : Nat) : Timer :=
  if addr = 0xff04 then { t with counter := 0 }
  else if addr = 0xff05 then { t with tima := val }
  else if addr = 0xff06 then { t with tma := val }
  else if addr = 0xff07 then { t with tac := val &&& 0x7 }
  else t

/-- Timer::read (same reachability remark as Timer.write). -/
def Timer.read (t : Timer) (addr : Nat) : Nat :=
  if addr = 0xff04 then u8 (t.counter >>> 8)
  else if addr = 0xff05 then t.tima
  else if addr = 0xff06 then t.tma
  else if addr = 0xff07 then t.tac
  else 0

/-- Timer::update. -/
def Timer.update (t : Timer) (tick : Nat) : Timer :=
  let counter_prev := t.counter
  let t := { t with counter := u16 (t.counter + tick) }
  if t.tac &&& 4 > 0 then
    let divider : Nat :=
      if t.tac &&& 3 = 0 then 10
      else if t.tac &&& 3 = 1 then 4
      else if t.tac &&& 3 = 2 then 6
      else 8
    let x := t.counter >>> divider
    let y := counter_prev >>> divider
    let mask := (1 <<< (16 - divider)) - 1
    let diff := (wsub16 x y) &&& mask
    if diff > 0 then
      if 256 ≤ t.tima + u8 diff then
        { t with tima := u8 (t.tma + (u8 diff + 255) % 256), irq_timer := true }
      else
        { t with tima := t.tima + u8 diff }
    else t
  else t

/-- Work RAM (src/src/wram.rs). -/
structure Wram where
  bank_index : Nat
  wram : Nat → Nat

/-- Wram::set_bank_index; the source panics for index >= 8. -/
def Wram.set_bank_index (w : Wram) (index : Nat) : Option Wram :=
  if index ≥ 8 then none
  else some { w with bank_index := index }

/-- Wram::get_bank_idnex (name as in the source). -/
def Wram.get_bank_idnex (w : Wram) : Nat := w.bank_index

/-- Wram::read_byte.  The MMU always masks the address with 0x1fff, so the
final arm (a panic in the source) is unreachable from the MMU. -/
def Wram.read_byte (w : Wram) (addr : Nat) : Nat :=
  if addr ≤ 0x0fff then w.wram addr
  else if addr ≤ 0x1fff then
    if w.bank_index = 0 ∨ w.bank_index = 1 then w.wram addr
    else w.wram (addr + (w.bank_index - 1) * 0x1000)
  else 0

/-- Wram::write_byte (same reachability remark as Wram.read_byte). -/
def Wram.write_byte (w : Wram) (addr value : Nat) : Wram :=
  if addr ≤ 0x0fff then { w with wram := setf w.wram addr value }
  else if addr ≤ 0x1fff then
    if w.bank_index = 0 ∨ w.bank_index = 1 then { w with wram := setf w.wram addr value }
    else { w with wram := setf w.wram (addr + (w.bank_index - 1) * 0x1000) value }
  else w

/-- Joypad (src/src/joypad.rs). -/
structure Joypad where
  joyp : Nat
  key_state : Nat
  irq : Bool

/-- Joypad::write_byte (only 0xff00 is routed here by the MMU). -/
def Joypad.write_byte (j : Joypad) (addr value : Nat) : Joypad :=
  if addr = 0xff00 then { j with joyp := (j.joyp &&& 0xcf) ||| (value &&& 0x30) }
  else j

/-- Joypad::read_byte (only 0xff00 is routed here by the MMU). -/
def Joypad.read_byte (j : Joypad) (addr : Nat) : Nat :=
  if addr = 0xff00 then
    if j.joyp &&& 0x10 = 0 then (j.joyp &&& 0xf0) ||| ((j.key_state >>> 4) &&& 0x0f)
    else if j.joyp &&& 0x20 = 0 then (j.joyp &&& 0xf0) ||| (j.key_state &&& 0x0f)
    else j.joyp
  else 0

/-- Serial stub (src/src/serial.rs). -/
structure Serial where
  data : Nat
  control : Nat

/-- Serial::read (only 0xff01..0xff02 are routed here by the MMU). -/
def Serial.read (s : Serial) (addr : Nat) : Nat :=
  if addr = 0xff01 then s.data
  else if addr = 0xff02 then s.control
  else 0

/-- Serial::write (only 0xff01..0xff02 are routed here by the MMU). -/
def Serial.write (s : Serial) (addr value : Nat) : Serial :=
  if addr = 0xff01 then { s with data := value }
  else if addr = 0xff02 then { s with control := value }
  else s

/-- CGB-style palette sub-component (src/src/ppu.rs, struct Palette). -/
structure Palette where
  specification_index : Nat
  palette : Nat → Nat
  is_object : Bool

/-- Palette::get_specification_index. -/
def Palette.get_specification_index (p : Palette) : Nat := p.specification_index

/-- Palette::set_specification_index. -/
def Palette.set_specification_index (p : Palette) (value : Nat) : Palette :=
  { p with specification_index := value }

/-- Palette::is_autoincrement. -/
def Palette.is_autoincrement (p : Palette) : Bool := p.specification_index >>> 7 = 1

/-- Palette::get_index. -/
def Palette.get_index (p : Palette) : Nat := p.specification_index &&& 0x3f

/-- Palette::get_color_data. -/
def Palette.get_color_data (p : Palette) : Nat := p.palette p.get_index

/-- Palette::set_color_data. -/
def Palette.set_color_data (p : Palette) (value : Nat) : Palette :=
  let p := { p with palette := setf p.palette p.get_index value }
  if p.is_autoincrement then { p with specification_index := u8 (p.specification_index + 1) }
  else p

/-- PPU state (src/src/ppu.rs).

The three DMG palette registers bgp_reg, obp0, obp1 are
Modelled from the spec: the source struct stores only the CGB `Palette`
structs (fields `bgp`, `objp`), yet its own renderer reads DMG-style byte
registers `self.bgp`, `self.obp0`, `self.obp1` that the struct does not
declare (the file does not type-check as given).  They are included here as
byte registers per spec sections 3.3 and 4.2. -/
structure Ppu where
  vram : Nat → Nat
  oam : Nat → Nat
  lcdc : Nat
  stat : Nat
  scy : Nat
  scx : Nat
  ly : Nat
  lyc : Nat
  dma : Nat
  wy : Nat
  wx : Nat
  vbk : Nat
  bgp : Palette
  objp : Palette
  bgp_reg : Nat
  obp0 : Nat
  obp1 : Nat
  frame : Nat → Nat
  counter : Nat
  irq_lcdc : Bool
  irq_vblank : Bool

/-- Ppu::get_vbk. -/
def Ppu.get_vbk (p : Ppu) : Nat := 0xfe ||| p.vbk

/-- Ppu::set_vbk. -/
def Ppu.set_vbk (p : Ppu) (value : Nat) : Ppu := { p with vbk := value &&& 1 }

/-- Ppu::is_lcd_and_ppu_enable. -/
def Ppu.is_lcd_and_ppu_enable (p : Ppu) : Bool := (p.lcdc >>> 7) &&& 1 = 1

/-- Ppu::is_window_enable. -/
def Ppu.is_window_enable (p : Ppu) : Bool := (p.lcdc >>> 5) &&& 1 = 1

/-- Ppu::is_obj_square. -/
def Ppu.is_obj_square (p : Ppu) : Bool := p.lcdc &&& 0x04 = 0

/-- Ppu::is_obj_enable. -/
def Ppu.is_obj_enable (p : Ppu) : Bool := (p.lcdc >>> 1) &&& 1 = 1

/-- Ppu::is_bg_window_enable. -/
def Ppu.is_bg_window_enable (p : Ppu) : Bool := p.lcdc &&& 1 = 1

/-- Ppu::get_bg_window_tile_row.  window_map_area / bg_map_area / get_tile_area
are inlined as their lcdc-bit tests; the i8/i16 sign-extension of the signed
tile number is written out in two's complement. -/
def Ppu.get_bg_window_tile_row (p : Ppu) (tile_x tile_y offset_y : Nat)
    (window_flag : Bool) : Nat × Nat :=
  let tile_map_index := tile_x + tile_y * 32
  let tile_map_addr :=
    if window_flag then
      if (p.lcdc >>> 6) &&& 1 = 1 then 0x1C00 + tile_map_index else 0x1800 + tile_map_index
    else
      if (p.lcdc >>> 3) &&& 1 = 1 then 0x1C00 + tile_map_index else 0x1800 + tile_map_index
  let tile_no := p.vram tile_map_addr
  let tile_addr :=
    if (p.lcdc >>> 4) &&& 1 = 1 then tile_no * 16
    else u16 (0x1000 + (if tile_no < 0x80 then tile_no else 0xFF00 + tile_no) * 16)
  let tile_addr := u16 (tile_addr + offset_y * 2)
  (p.vram tile_addr, p.vram (tile_addr + 1))

/-- Ppu::get_sprite_tile_row. -/
def Ppu.get_sprite_tile_row (p : Ppu) (tile_no offset_y : Nat) : Nat × Nat :=
  let tile_addr := tile_no * 16 + offset_y * 2
  (p.vram tile_addr, p.vram (tile_addr + 1))

/-- Ppu::get_tile_color. -/
def Ppu.get_tile_color (tile_row_low tile_row_high offset_x : Nat) : Nat :=
  let shift_num := 7 - offset_x
  let bit_low := (tile_row_low >>> shift_num) &&& 1
  let bit_high := (tile_row_high >>> shift_num) &&& 1
  (bit_high <<< 1) ||| bit_low

/-- Ppu::get_pixel_color (reads the DMG bgp byte, see the Ppu doc comment). -/
def Ppu.get_pixel_color (p : Ppu) (tile_row_low tile_row_high offset_x : Nat) : Nat :=
  let tile_color := Ppu.get_tile_color tile_row_low tile_row_high offset_x
  match (p.bgp_reg >>> (tile_color <<< 1)) &&& 0x3 with
  | 0 => 0xff
  | 1 => 0xaa
  | 2 => 0x55
  | _ => 0x00

/-- Ppu::get_sprite_color (reads the DMG obp0/obp1 bytes, see the Ppu doc
comment). -/
def Ppu.get_sprite_color (p : Ppu) (tile_color sprite_flag : Nat) : Nat :=
  let palette := if sprite_flag &&& 0x10 > 0 then p.obp1 else p.obp0
  match (palette >>> (tile_color <<< 1)) &&& 0x3 with
  | 0 => 0xff
  | 1 => 0xaa
  | 2 => 0x55
  | _ => 0x00

/-- Ppu::render_bg. -/
def Ppu.render_bg (p0 : Ppu) : Ppu :=
  let wx := wsub8 p0.wx 7
  let wy := p0.wy
  (List.range 160).foldl (fun p x =>
    let window_flag := wy ≤ p.ly ∧ wx ≤ p.scx + x ∧ p.is_window_enable
    let pixel_x := if window_flag then wsub8 x wx else u8 (p.scx + x)
    let pixel_y := if window_flag then wsub8 p.ly wy else u8 (p.scy + p.ly)
    let tile_x := pixel_x >>> 3
    let tile_y := pixel_y >>> 3
    let offset_x := pixel_x &&& 0x07
    let offset_y := pixel_y &&& 0x07
    let row := p.get_bg_window_tile_row tile_x tile_y offset_y window_flag
    let color := p.get_pixel_color row.1 row.2 offset_x
    let index := x + p.ly * 160
    { p with frame := setf p.frame index color }) p0

/-- Inner column loop of Ppu::render_sprites (the for offset_x in 0..8 loop,
with its break and continue). -/
def Ppu.sprite_cols (p : Ppu) (sprite_x ly row_low row_high sprite_flag : Nat)
    (flip_x : Bool) : List Nat → (Nat → Nat) → (Nat → Nat)
  | [], fr => fr
  | offset_x :: rest, fr =>
    if 160 ≤ u8 (sprite_x + offset_x) then fr
    else
      let pixel_x := u8 (sprite_x + offset_x)
      let index_x := if flip_x then 7 - offset_x else offset_x
      let tile_color := Ppu.get_tile_color row_low row_high index_x
      if tile_color = 0 then Ppu.sprite_cols p sprite_x ly row_low row_high sprite_flag flip_x rest fr
      else
        let index := pixel_x + ly * 160
        if fr index ≠ 0xff ∧ sprite_flag &&& 0x80 > 0 then
          Ppu.sprite_cols p sprite_x ly row_low row_high sprite_flag flip_x rest fr
        else
          Ppu.sprite_cols p sprite_x ly row_low row_high sprite_flag flip_x rest
            (setf fr index (p.get_sprite_color tile_color sprite_flag))

/-- Outer OAM loop of Ppu::render_sprites (for i in 0..40, with the
10-visible-sprites break). -/
def Ppu.sprites_loop (p : Ppu) (height : Nat) : List Nat → Nat → (Nat → Nat) → (Nat → Nat)
  | [], _, fr => fr
  | i :: rest, sprites_num, fr =>
    let sprite_addr := i * 4
    let sprite_y := wsub8 (p.oam sprite_addr) 16
    let sprite_x := wsub8 (p.oam (sprite_addr + 1)) 8
    let tile_no := p.oam (sprite_addr + 2) &&& (if p.is_obj_square then 0xff else 0xfe)
    let sprite_flag := p.oam (sprite_addr + 3)
    let flip_y_flag := sprite_flag &&& 0x40 > 0
    let flip_x_flag := sprite_flag &&& 0x20 > 0
    if sprite_y > p.ly ∨ p.ly ≥ u8 (sprite_y + height) then
      Ppu.sprites_loop p height rest sprites_num fr
    else if 160 ≤ sprite_x ∧ sprite_x ≤ 248 then
      Ppu.sprites_loop p height rest sprites_num fr
    else
      let sprites_num := sprites_num + 1
      if sprites_num > 10 then fr
      else
        let offset_y :=
          if flip_y_flag then wsub8 (height - 1) (wsub8 p.ly sprite_y)
          else wsub8 p.ly sprite_y
        let row := p.get_sprite_tile_row tile_no offset_y
        Ppu.sprites_loop p height rest sprites_num
          (Ppu.sprite_cols p sprite_x p.ly row.1 row.2 sprite_flag flip_x_flag (List.range 8) fr)

/-- Ppu::render_sprites. -/
def Ppu.render_sprites (p : Ppu) : Ppu :=
  let height := if p.lcdc &&& 0x4 > 0 then 16 else 8
  { p with frame := Ppu.sprites_loop p height (List.range 40) 0 p.frame }

/-- Ppu::render_scan. -/
def Ppu.render_scan (p : Ppu) : Ppu :=
  let p := if p.lcdc &&& 0x1 > 0 then p.render_bg else p
  if p.is_obj_enable then p.render_sprites else p

/-- Ppu::read; none models the panic of the final match arm (reachable from
the MMU for 0xff47..0xff49). -/
def Ppu.read (p : Ppu) (addr : Nat) : Option Nat :=
  if 0x8000 ≤ addr ∧ addr ≤ 0x9fff then
    some (if p.stat &&& 0x3 ≠ 3 then p.vram (addr &&& 0x1fff) else 0xff)
  else if 0xfe00 ≤ addr ∧ addr ≤ 0xfe9f then
    some (if p.stat &&& 0x3 = 0 ∨ p.stat &&& 0x3 = 1 then p.oam (addr &&& 0x00ff) else 0xff)
  else if addr = 0xff40 then some p.lcdc
  else if addr = 0xff41 then some p.stat
  else if addr = 0xff42 then some p.scy
  else if addr = 0xff43 then some p.scx
  else if addr = 0xff44 then some p.ly
  else if addr = 0xff45 then some p.lyc
  else if addr = 0xff46 then some p.dma
  else if addr = 0xff4a then some p.wy
  else if addr = 0xff4b then some p.wx
  else if addr = 0xff4f then some p.get_vbk
  else if addr = 0xff68 then some p.bgp.get_specification_index
  else if addr = 0xff69 then some p.bgp.get_color_data
  else if addr = 0xff6a then some p.objp.get_specification_index
  else if addr = 0xff6b then some p.objp.get_color_data
  else none

/-- Ppu::update_lyc_interrupt. -/
def Ppu.update_lyc_interrupt (p : Ppu) : Ppu :=
  if p.ly = p.lyc then { p with stat := p.stat ||| 0x4, irq_lcdc := true }
  else { p with stat := p.stat &&& 0xfb }

/-- Ppu::update_mode_interrupt. -/
def Ppu.update_mode_interrupt (p : Ppu) : Ppu :=
  if p.stat &&& 0x3 = 0 ∧ p.stat &&& 0x8 > 0 then { p with irq_lcdc := true }
  else if p.stat &&& 0x3 = 1 ∧ p.stat &&& 0x10 > 0 then { p with irq_lcdc := true }
  else if p.stat &&& 0x3 = 2 ∧ p.stat &&& 0x20 > 0 then { p with irq_lcdc := true }
  else p

/-- Ppu::write; none models the panic of the final match arm (reachable from
the MMU for 0xff47..0xff49). -/
def Ppu.write (p : Ppu) (addr value : Nat) : Option Ppu :=
  if 0x8000 ≤ addr ∧ addr ≤ 0x9fff then
    some (if p.stat &&& 0x3 ≠ 3 then { p with vram := setf p.vram (addr &&& 0x1fff) value } else p)
  else if 0xfe00 ≤ addr ∧ addr ≤ 0xfe9f then
    some (if p.stat &&& 0x3 = 0 ∨ p.stat &&& 0x3 = 1 then
      { p with oam := setf p.oam (addr &&& 0x00ff) value } else p)
  else if addr = 0xff40 then
    let p :=
      if p.lcdc &&& 0x80 ≠ value &&& 0x80 then
        let p := { p with ly := 0, counter := 0 }
        let mode := if value &&& 0x80 > 0 then 2 else 0
        let p := { p with stat := (p.stat &&& 0xf8) ||| mode }
        p.update_mode_interrupt
      else p
    some { p with lcdc := value }
  else if addr = 0xff41 then some { p with stat := (value &&& 0xf8) ||| (p.stat &&& 0x3) }
  else if addr = 0xff42 then some { p with scy := value }
  else if addr = 0xff43 then some { p with scx := value }
  else if addr = 0xff44 then some p
  else if addr = 0xff45 then
    some (if p.lyc ≠ value then ({ p with lyc := value }).update_lyc_interrupt else p)
  else if addr = 0xff4a then some { p with wy := value }
  else if addr = 0xff4b then some { p with wx := value }
  else if addr = 0xff4f then some (p.set_vbk value)
  else if addr = 0xff68 then some { p with bgp := p.bgp.set_specification_index value }
  else if addr = 0xff69 then some { p with bgp := p.bgp.set_color_data value }
  else if addr = 0xff6a then some { p with objp := p.objp.set_specification_index value }
  else if addr = 0xff6b then some { p with objp := p.objp.set_color_data value }
  else none

/-- Ppu::update.  When the LCD is disabled the function returns immediately
with the state untouched. -/
def Ppu.update (p : Ppu) (clock : Nat) : Ppu :=
  if ¬ p.is_lcd_and_ppu_enable then p
  else
    let p := { p with counter := u16 (p.counter + clock) }
    match p.stat &&& 0x3 with
    | 2 =>
      if p.counter ≥ 80 then
        let p := { p with counter := p.counter - 80 }
        let p := { p with stat := (p.stat &&& 0xf8) ||| 3 }
        p.render_scan
      else p
    | 3 =>
      if p.counter ≥ 172 then
        let p := { p with counter := p.counter - 172 }
        let p := { p with stat := p.stat &&& 0xf8 }
        p.update_mode_interrupt
      else p
    | 0 =>
      if p.counter ≥ 204 then
        let p := { p with counter := p.counter - 204 }
        let p := { p with ly := u8 (p.ly + 1) }
        let p :=
          if p.ly ≥ 144 then { p with stat := (p.stat &&& 0xf8) ||| 1, irq_vblank := true }
          else { p with stat := (p.stat &&& 0xf8) ||| 2 }
        let p := p.update_lyc_interrupt
        p.update_mode_interrupt
      else p
    | _ =>
      if p.counter ≥ 456 then
        let p := { p with counter := p.counter - 456 }
        let p := { p with ly := u8 (p.ly + 1) }
        let p :=
          if p.ly ≥ 154 then
            let p := { p with stat := (p.stat &&& 0xf8) ||| 2, ly := 0 }
            p.update_mode_interrupt
          else p
        p.update_lyc_interrupt
      else p

/-- RomOnly cartridge (src/src/cartridge.rs, struct RomOnly). -/
structure RomOnly where
  rom : Nat → Nat

/-- RomOnly::read; none models the panic for addresses outside the ROM
region (reachable from the MMU for 0xa000..0xbfff). -/
def RomOnly.read (c : RomOnly) (addr : Nat) : Option Nat :=
  if addr ≤ 0x7fff then some (c.rom addr) else none

/-- MBC1 cartridge (src/src/cartridge.rs, struct MBC1).  The title field,
used only for save files, is omitted. -/
structure Mbc1 where
  rom : Nat → Nat
  ram : Nat → Nat
  mode_flag : Bool
  is_ram_enable : Bool
  rom_bank_no : Nat
  ram_bank_no : Nat
  num_rom_banks : Nat

/-- MBC1::rom_bank_no (the method; the struct field of the same name holds
the raw 5-bit latch). -/
def Mbc1.effective_rom_bank (c : Mbc1) : Nat :=
  let bank_no := if c.mode_flag then c.rom_bank_no else (c.ram_bank_no <<< 5) ||| c.rom_bank_no
  let bank_no := if bank_no = 0 ∨ bank_no = 0x20 ∨ bank_no = 0x40 ∨ bank_no = 0x60
    then bank_no + 1 else bank_no
  bank_no &&& (c.num_rom_banks - 1)

/-- MBC1::ram_bank_no (the method). -/
def Mbc1.effective_ram_bank (c : Mbc1) : Nat :=
  if c.mode_flag then c.ram_bank_no else 0

/-- MBC1::read.  All addresses the MMU can route here (0x0000..0x7fff and
0xa000..0xbfff) are covered; the source marks the rest unreachable!. -/
def Mbc1.read (c : Mbc1) (addr : Nat) : Option Nat :=
  if addr ≤ 0x3fff then some (c.rom addr)
  else if addr ≤ 0x7fff then
    let offset := 16 * 1024 * c.effective_rom_bank
    some (c.rom ((addr &&& 0x3fff) + offset))
  else if 0xa000 ≤ addr ∧ addr ≤ 0xbfff then
    if ¬ c.is_ram_enable then some 0xff
    else
      let offset := 8 * 1024 * c.effective_ram_bank
      some (c.ram ((addr &&& 0x1fff) + offset))
  else none

/-- MBC1::write (same coverage remark as Mbc1.read). -/
def Mbc1.write (c : Mbc1) (addr value : Nat) : Mbc1 :=
  if addr ≤ 0x1fff then { c with is_ram_enable := value &&& 0x0f = 0x0a }
  else if addr ≤ 0x3fff then { c with rom_bank_no := value &&& 0x1f }
  else if addr ≤ 0x5fff then { c with ram_bank_no := value &&& 0x03 }
  else if addr ≤ 0x7fff then { c with mode_flag := value &&& 0x01 = 0x01 }
  else if 0xa000 ≤ addr ∧ addr ≤ 0xbfff then
    if ¬ c.is_ram_enable then c
    else
      let offset := 8 * 1024 * c.effective_ram_bank
      { c with ram := setf c.ram ((addr &&& 0x1fff) + offset) value }
  else c

/-- Cartridge: the dyn Cartridge trait object, restricted to the two
variants the claims exercise. -/
inductive Cartridge where
  | romOnly : RomOnly → Cartridge
  | mbc1 : Mbc1 → Cartridge

/-- Cartridge::read dispatch. -/
def Cartridge.read (c : Cartridge) (addr : Nat) : Option Nat :=
  match c with
  | .romOnly r => r.read addr
  | .mbc1 m => m.read addr

/-- Cartridge::write dispatch. -/
def Cartridge.write (c : Cartridge) (addr value : Nat) : Cartridge :=
  match c with
  | .romOnly r => .romOnly r
  | .mbc1 m => .mbc1 (m.write addr value)

/-- Interrupt kinds (src/src/cpu.rs, enum Interrupt). -/
inductive Interrupt where
  | vblank
  | lcdstat
  | timer
  | serial
  | joypad

/-- The IF-clearing masks of Mmu::reset_interrupt. -/
def Interrupt.mask : Interrupt → Nat
  | .vblank => 0xfe
  | .lcdstat => 0xfd
  | .timer => 0xfb
  | .serial => 0xf7
  | .joypad => 0xef

/-- The service vectors of Cpu::exec_interrupt. -/
def Interrupt.vector : Interrupt → Nat
  | .vblank => 0x40
  | .lcdstat => 0x48
  | .timer => 0x50
  | .serial => 0x58
  | .joypad => 0x60

/-- MMU (src/src/mmu.rs). -/
structure Mmu where
  cartridge : Cartridge
  ppu : Ppu
  joypad : Joypad
  serial : Serial
  timer : Timer
  wram : Wram
  interrupt_flag : Nat
  interrupt_enable : Nat
  hram : Nat → Nat

/-- Mmu::reset_interrupt. -/
def Mmu.reset_interrupt (m : Mmu) (it : Interrupt) : Mmu :=
  { m with interrupt_flag := m.interrupt_flag &&& it.mask }

/-- Mmu::read_byte; the if-chain follows the source match arms in order. -/
def Mmu.read_byte (m : Mmu) (addr : Nat) : Option Nat :=
  if addr ≤ 0x7fff then m.cartridge.read addr
  else if addr ≤ 0x9fff then m.ppu.read addr
  else if addr ≤ 0xbfff then m.cartridge.read addr
  else if addr ≤ 0xdfff then some (m.wram.read_byte (addr &&& 0x1fff))
  else if addr ≤ 0xfdff then some (m.wram.read_byte ((addr - 0x2000) &&& 0x1fff))
  else if addr ≤ 0xfe9f then m.ppu.read addr
  else if addr ≤ 0xfeff then some 0x00
  else if addr = 0xff00 then some (m.joypad.read_byte addr)
  else if 0xff01 ≤ addr ∧ addr ≤ 0xff02 then some (m.serial.read addr)
  else if addr = 0xff0f then some m.interrupt_flag
  else if 0xff04 ≤ addr ∧ addr ≤ 0xff07 then some (m.timer.read addr)
  else if (0xff40 ≤ addr ∧ addr ≤ 0xff45) ∨ (0xff47 ≤ addr ∧ addr ≤ 0xff4b) then m.ppu.read addr
  else if addr = 0xff4f then m.ppu.read addr
  else if 0xff51 ≤ addr ∧ addr ≤ 0xff55 then some 0
  else if addr = 0xff68 ∨ addr = 0xff69 ∨ addr = 0xff6a ∨ addr = 0xff6b then m.ppu.read addr
  else if addr = 0xff70 then some m.wram.get_bank_idnex
  else if 0xff80 ≤ addr ∧ addr ≤ 0xfffe then some (m.hram (addr &&& 0x7f))
  else if addr = 0xffff then some m.interrupt_enable
  else some 0x00

/-- Mmu::write_byte, parameterised by the handler of the 0xff46 (OAM DMA)
arm.  The source's write_byte and do_dma are mutually recursive; since the
DMA destination writes all land in 0xfe00..0xfe9f and therefore never
re-enter the DMA arm, the knot is tied below by instantiating the handler
(Mmu.do_dma uses a never-reached dummy handler for its own writes).
The if-chain follows the source match arms in order. -/
def Mmu.write_byte_aux (dma : Mmu → Nat → Option Mmu) (m : Mmu) (addr value : Nat) :
    Option Mmu :=
  if addr ≤ 0x7fff then some { m with cartridge := m.cartridge.write addr value }
  else if addr ≤ 0x9fff then (m.ppu.write addr value).map (fun p => { m with ppu := p })
  else if addr ≤ 0xbfff then some { m with cartridge := m.cartridge.write addr value }
  else if addr ≤ 0xdfff then some { m with wram := m.wram.write_byte (addr &&& 0x1fff) value }
  else if addr ≤ 0xfdff then
    some { m with wram := m.wram.write_byte ((addr - 0x2000) &&& 0x1fff) value }
  else if addr ≤ 0xfe9f then (m.ppu.write addr value).map (fun p => { m with ppu := p })
  else if addr ≤ 0xfeff then some m
  else if addr = 0xff00 then some { m with joypad := m.joypad.write_byte addr value }
  else if addr = 0xff0f then some { m with interrupt_flag := value }
  else if 0xff01 ≤ addr ∧ addr ≤ 0xff02 then some { m with serial := m.serial.write addr value }
  else if 0xff04 ≤ addr ∧ addr ≤ 0xff07 then some { m with timer := m.timer.write addr value }
  else if (0xff40 ≤ addr ∧ addr ≤ 0xff45) ∨ (0xff47 ≤ addr ∧ addr ≤ 0xff4b) then
    (m.ppu.write addr value).map (fun p => { m with ppu := p })
  else if addr = 0xff46 then dma m value
  else if addr = 0xff4f then (m.ppu.write addr value).map (fun p => { m with ppu := p })
  else if 0xff51 ≤ addr ∧ addr ≤ 0xff55 then some m
  else if addr = 0xff68 ∨ addr = 0xff69 ∨ addr = 0xff6a ∨ addr = 0xff6b then
    (m.ppu.write addr value).map (fun p => { m with ppu := p })
  else if addr = 0xff6c then none
  else if addr = 0xff70 then (m.wram.set_bank_index value).map (fun w => { m with wram := w })
  else if 0xff80 ≤ addr ∧ addr ≤ 0xfffe then
    some { m with hram := setf m.hram (addr &&& 0x7f) value }
  else if addr = 0xffff then some { m with interrupt_enable := value }
  else some m

/-- Mmu::do_dma.  none models the assert!(val <= 0xf1) failing, or a
panicking read; the copy is byte-by-byte read_byte/write_byte as in the
source loop.  The destination addresses 0xfe00..0xfe9f never reach the
0xff46 arm, so its handler here is a dummy. -/
def Mmu.do_dma (m : Mmu) (val : Nat) : Option Mmu :=
  if val ≤ 0xf1 then
    (List.range 0xa0).foldlM (fun acc i =>
      match Mmu.read_byte acc ((val <<< 8) ||| i) with
      | none => none
      | some tmp => Mmu.write_byte_aux (fun _ _ => none) acc (0xfe00 ||| i) tmp) m
  else none

/-- Mmu::write_byte (the tied knot, see Mmu.write_byte_aux). -/
def Mmu.write_byte (m : Mmu) (addr value : Nat) : Option Mmu :=
  Mmu.write_byte_aux Mmu.do_dma m addr value

/-- Mmu::update: tick the PPU and the Timer, then latch their IRQ lines
into IF and clear the latches. -/
def Mmu.update (m : Mmu) (clock : Nat) : Mmu :=
  let m := { m with ppu := m.ppu.update clock }
  let m := { m with timer := m.timer.update clock }
  let m :=
    if m.ppu.irq_vblank then
      { m with interrupt_flag := m.interrupt_flag ||| 0x1,
               ppu := { m.ppu with irq_vblank := false } }
    else m
  let m :=
    if m.ppu.irq_lcdc then
      { m with interrupt_flag := m.interrupt_flag ||| 0x2,
               ppu := { m.ppu with irq_lcdc := false } }
    else m
  let m :=
    if m.timer.irq_timer then
      { m with interrupt_flag := m.interrupt_flag ||| 0x4,
               timer := { m.timer with irq_timer := false } }
    else m
  if m.joypad.irq then
    { m with interrupt_flag := m.interrupt_flag ||| 0x10,
             joypad := { m.joypad with irq := false } }
  else m

/-- CPU state (src/src/cpu.rs, struct Cpu). -/
structure Cpu where
  a : Nat
  f : Nat
  b : Nat
  c : Nat
  d : Nat
  e : Nat
  h : Nat
  l : Nat
  sp : Nat
  pc : Nat
  zero_flag : Bool
  subtraction_flag : Bool
  half_carry_flag : Bool
  carry_flag : Bool
  mmu : Mmu
  clock : Nat
  ime : Bool
  halt : Bool
  total_elapsed_clock : Nat

/-- Cpu::add_program_count. -/
def Cpu.add_program_count (s : Cpu) (count : Nat) : Cpu :=
  { s with pc := u16 (s.pc + count) }

/-- Cpu::add_clock. -/
def Cpu.add_clock (s : Cpu) (count : Nat) : Cpu :=
  { s with clock := u32 (s.clock + count) }

/-- Cpu::set_zero_flag. -/
def Cpu.set_zero_flag (s : Cpu) (flag : Bool) : Cpu :=
  { s with zero_flag := flag, f := (s.f &&& 0x7f) ||| ((if flag then 1 else 0) <<< 7) }

/-- Cpu::set_subtraction_flag. -/
def Cpu.set_subtraction_flag (s : Cpu) (flag : Bool) : Cpu :=
  { s with subtraction_flag := flag, f := (s.f &&& 0xbf) ||| ((if flag then 1 else 0) <<< 6) }

/-- Cpu::set_half_carry_flag. -/
def Cpu.set_half_carry_flag (s : Cpu) (flag : Bool) : Cpu :=
  { s with half_carry_flag := flag, f := (s.f &&& 0xdf) ||| ((if flag then 1 else 0) <<< 5) }

/-- Cpu::set_carry_flag. -/
def Cpu.set_carry_flag (s : Cpu) (flag : Bool) : Cpu :=
  { s with carry_flag := flag, f := (s.f &&& 0xef) ||| ((if flag then 1 else 0) <<< 4) }

/-- Cpu::get_byte_from_flags. -/
def Cpu.get_byte_from_flags (s : Cpu) : Nat :=
  (if s.zero_flag then 0x80 else 0) |||
  (if s.subtraction_flag then 0x40 else 0) |||
  (if s.half_carry_flag then 0x20 else 0) |||
  (if s.carry_flag then 0x10 else 0)

/-- Cpu::set_flags_from_byte. -/
def Cpu.set_flags_from_byte (s : Cpu) (value : Nat) : Cpu :=
  let s := s.set_zero_flag (value &&& 0x80 > 0)
  let s := s.set_subtraction_flag (value &&& 0x40 > 0)
  let s := s.set_half_carry_flag (value &&& 0x20 > 0)
  s.set_carry_flag (value &&& 0x10 > 0)

/-- Cpu::read_word. -/
def Cpu.read_word (s : Cpu) (addr : Nat) : Option Nat :=
  match s.mmu.read_byte addr with
  | none => none
  | some low_value =>
    match s.mmu.read_byte (u16 (addr + 1)) with
    | none => none
    | some high_value => some ((high_value <<< 8) + low_value)

/-- Cpu::write_word. -/
def Cpu.write_word (s : Cpu) (addr value : Nat) : Option Cpu :=
  let low_value := value &&& 0xff
  let high_value := u8 (value >>> 8)
  match s.mmu.write_byte addr low_value with
  | none => none
  | some m1 =>
    match m1.write_byte (u16 (addr + 1)) high_value with
    | none => none
    | some m2 => some { s with mmu := m2 }

/-- The push/pop register pairs (enum Register restricted to the pairs
push_nn/pop_nn accept). -/
inductive RegPair where
  | af
  | bc
  | de
  | hl

/-- Cpu::push_nn. -/
def Cpu.push_nn (s : Cpu) (rp : RegPair) : Option Cpu :=
  let s := { s with sp := wsub16 s.sp 2 }
  let hl : Nat × Nat :=
    match rp with
    | .af => (s.a, s.get_byte_from_flags)
    | .bc => (s.b, s.c)
    | .de => (s.d, s.e)
    | .hl => (s.h, s.l)
  let addr := s.sp
  let value := (hl.1 <<< 8) ||| hl.2
  match s.write_word addr value with
  | none => none
  | some s1 => some (s1.add_clock 16)

/-- Cpu::pop_nn. -/
def Cpu.pop_nn (s : Cpu) (rp : RegPair) : Option Cpu :=
  match s.mmu.read_byte s.sp with
  | none => none
  | some low_value =>
    let s := { s with sp := u16 (s.sp + 1) }
    match s.mmu.read_byte s.sp with
    | none => none
    | some high_value =>
      let s := { s with sp := u16 (s.sp + 1) }
      let s :=
        match rp with
        | .af => ({ s with a := high_value }).set_flags_from_byte low_value
        | .bc => { s with b := high_value, c := low_value }
        | .de => { s with d := high_value, e := low_value }
        | .hl => { s with h := high_value, l := low_value }
      some (s.add_clock 12)

/-- Cpu::nop. -/
def Cpu.nop (s : Cpu) : Cpu := s.add_clock 4

/-- Cpu::halt (the HALT instruction; sets the halt flag only when IME is
set). -/
def Cpu.halt_instr (s : Cpu) : Cpu :=
  let s := if s.ime then { s with halt := true } else s
  s.add_clock 4

/-- Cpu::di. -/
def Cpu.di (s : Cpu) : Cpu :=
  let s := { s with ime := false }
  s.add_clock 4

/-- Cpu::ei.  IME is set synchronously, with no one-instruction delay. -/
def Cpu.ei (s : Cpu) : Cpu :=
  let s := { s with ime := true }
  s.add_clock 4

/-- Cpu::exec, embedded for the opcode subset the claims exercise (NOP,
HALT, DI, EI and the stack push/pop family); every opcode outside this
subset maps to none, so theorems about runs quantify over programs built
from the embedded subset. -/
def Cpu.exec (opcode : Nat) (s : Cpu) : Option Cpu :=
  if opcode = 0x00 then some s.nop
  else if opcode = 0x76 then some s.halt_instr
  else if opcode = 0xC1 then s.pop_nn .bc
  else if opcode = 0xC5 then s.push_nn .bc
  else if opcode = 0xD1 then s.pop_nn .de
  else if opcode = 0xD5 then s.push_nn .de
  else if opcode = 0xE1 then s.pop_nn .hl
  else if opcode = 0xE5 then s.push_nn .hl
  else if opcode = 0xF1 then s.pop_nn .af
  else if opcode = 0xF3 then some s.di
  else if opcode = 0xF5 then s.push_nn .af
  else if opcode = 0xFB then some s.ei
  else none

/-- Cpu::exec_interrupt: clear IME and halt, clear the serviced IF bit,
push PC, consume 20 cycles, jump to the vector, and tick the system by 20
cycles. -/
def Cpu.exec_interrupt (it : Interrupt) (s : Cpu) : Option Cpu :=
  let s := { s with ime := false, halt := false, mmu := s.mmu.reset_interrupt it }
  let addr := it.vector
  let s := { s with sp := wsub16 s.sp 2 }
  match s.write_word s.sp s.pc with
  | none => none
  | some s1 =>
    let s2 := s1.add_clock 20
    let s3 := { s2 with pc := addr }
    some { s3 with mmu := s3.mmu.update 20 }

/-- One iteration of the for-loop of Cpu::handle_interrupt: match on
interrupt_source & (1 << bit) and dispatch, or continue.  The second
component counts dispatched interrupts (instrumentation used by the
cycle-balance claims). -/
def Cpu.interrupt_bit_step (src bit : Nat) (p : Cpu × Nat) : Option (Cpu × Nat) :=
  match src &&& (1 <<< bit) with
  | 0x01 => (Cpu.exec_interrupt .vblank p.1).map (fun c => (c, p.2 + 1))
  | 0x02 => (Cpu.exec_interrupt .lcdstat p.1).map (fun c => (c, p.2 + 1))
  | 0x04 => (Cpu.exec_interrupt .timer p.1).map (fun c => (c, p.2 + 1))
  | 0x08 => (Cpu.exec_interrupt .serial p.1).map (fun c => (c, p.2 + 1))
  | 0x10 => (Cpu.exec_interrupt .joypad p.1).map (fun c => (c, p.2 + 1))
  | _ => some p

/-- Cpu::handle_interrupt: for bit in 0..=4, dispatch each pending
interrupt of the IF & IE snapshot taken before the loop.  Returns the
state and the number of interrupts dispatched. -/
def Cpu.handle_interrupt (s : Cpu) : Option (Cpu × Nat) :=
  let src := s.mmu.interrupt_flag &&& s.mmu.interrupt_enable
  (List.range 5).foldlM (fun p bit => Cpu.interrupt_bit_step src bit p) (s, 0)

/-- Cpu::step.  Returns (new state, cycles returned to the caller,
ticks delivered to Mmu.update during the step, interrupts dispatched).
The source returns only the second component (elapse_clock as u16); the
third and fourth are instrumentation for the cycle-balance claims: every
Mmu.update call inside a step forwards its tick count to both Ppu.update
and Timer.update, and the sum of those tick counts is the third component
(elapse_clock as u8, plus 20 per dispatched interrupt). -/
def Cpu.step (s0 : Cpu) : Option (Cpu × Nat × Nat × Nat) :=
  match s0.mmu.read_byte s0.pc with
  | none => none
  | some opcode =>
    let cont : Cpu → Nat → Option (Cpu × Nat × Nat × Nat) := fun s1 elapse =>
      let s3 := { s1 with mmu := s1.mmu.update (u8 elapse) }
      match (if s3.ime then s3.handle_interrupt else some (s3, 0)) with
      | none => none
      | some p =>
        let s5 := { p.1 with total_elapsed_clock := u32 (p.1.total_elapsed_clock + elapse) }
        some (s5, u16 elapse, u8 elapse + 20 * p.2, p.2)
    if s0.halt then cont (s0.add_clock 4) 4
    else
      let s := s0.add_program_count 1
      let before := s.clock
      match Cpu.exec opcode s with
      | none => none
      | some s2 => cont s2 (wsub32 s2.clock before)

/-- A run of N calls to step(): final state, summed returned cycles,
summed delivered ticks, summed dispatched-interrupt count. -/
def Cpu.run_steps (s : Cpu) : Nat → Option (Cpu × Nat × Nat × Nat)
  | 0 => some (s, 0, 0, 0)
  | n + 1 =>
    match s.step with
    | none => none
    | some (s1, r, d, k) =>
      match s1.run_steps n with
      | none => none
      | some (s2, rr, dd, kk) => some (s2, r + rr, d + dd, k + kk)

/-- Number of pending interrupt bits among bits 0..4 of an IF & IE
snapshot (the number of arms of the handle_interrupt loop that dispatch). -/
def pending_count (src : Nat) : Nat :=
  ((List.range 5).filter (fun b => src &&& (1 <<< b) = 1 <<< b)).length

/-- Vector of the highest-numbered pending bit of an IF & IE snapshot
(dflt when no bit 0..4 is pending). -/
def highest_vector (src dflt : Nat) : Nat :=
  if src &&& 0x10 = 0x10 then 0x60
  else if src &&& 0x8 = 0x8 then 0x58
  else if src &&& 0x4 = 0x4 then 0x50
  else if src &&& 0x2 = 0x2 then 0x48
  else if src &&& 0x1 = 0x1 then 0x40
  else dflt

/-- The MBC1 ROM bank number exactly as the claim words it:
B = (mode==0 ? ram_or_upper<<5 : 0) | rom_low, then 0x00/0x20/0x40/0x60
map to B+1, then mask with num_banks-1. -/
def mbc1_claim_bank (c : Mbc1) : Nat :=
  let b := (if c.mode_flag then 0 else c.ram_bank_no <<< 5) ||| c.rom_bank_no
  let b := if b = 0 ∨ b = 0x20 ∨ b = 0x40 ∨ b = 0x60 then b + 1 else b
  b &&& (c.num_rom_banks - 1)

/-- The selected (pre-mask, post-bump) MBC1 bank of the claim. -/
def mbc1_selected_bank (c : Mbc1) : Nat :=
  let b := (if c.mode_flag then 0 else c.ram_bank_no <<< 5) ||| c.rom_bank_no
  if b = 0 ∨ b = 0x20 ∨ b = 0x40 ∨ b = 0x60 then b + 1 else b

/-- All-zero byte buffer. -/
def zeroBuf : Nat → Nat := fun _ => 0

/-- A fresh CGB palette sub-component. -/
def samplePalette (b : Bool) : Palette :=
  { specification_index := 0, palette := zeroBuf, is_object := b }

/-- A PPU whose LCD-enable bit is clear and whose registers are otherwise
the reset values. -/
def ppuOff : Ppu :=
  { vram := zeroBuf, oam := zeroBuf, lcdc := 0, stat := 2, scy := 0, scx := 0,
    ly := 0, lyc := 0, dma := 0, wy := 0, wx := 0, vbk := 0,
    bgp := samplePalette false, objp := samplePalette true,
    bgp_reg := 0, obp0 := 0, obp1 := 0, frame := zeroBuf, counter := 0,
    irq_lcdc := false, irq_vblank := false }

/-- A small MBC1 cartridge over a given ROM image. -/
def sampleMbc1 (rom : Nat → Nat) : Mbc1 :=
  { rom := rom, ram := zeroBuf, mode_flag := false, is_ram_enable := false,
    rom_bank_no := 0, ram_bank_no := 0, num_rom_banks := 2 }

/-- An MMU around a given cartridge / PPU / timer with given IF and IE. -/
def sampleMmu (cart : Cartridge) (p : Ppu) (t : Timer) (ifl ie : Nat) : Mmu :=
  { cartridge := cart, ppu := p,
    joypad := { joyp := 0xff, key_state := 0xff, irq := false },
    serial := { data := 0, control := 0 }, timer := t,
    wram := { bank_index := 0, wram := zeroBuf },
    interrupt_flag := ifl, interrupt_enable := ie, hram := zeroBuf }

/-- A timer in its reset state. -/
def timer0 : Timer := { tima := 0, tma := 0, tac := 0, counter := 0, irq_timer := false }

/-- A CPU around a given MMU. -/
def sampleCpu (m : Mmu) (pcv spv : Nat) (imev haltv : Bool) : Cpu :=
  { a := 0, f := 0, b := 0, c := 0, d := 0, e := 0, h := 0, l := 0,
    sp := spv, pc := pcv, zero_flag := false, subtraction_flag := false,
    half_carry_flag := false, carry_flag := false, mmu := m, clock := 0,
    ime := imev, halt := haltv, total_elapsed_clock := 0 }

/-- C1/C3 counterexample state: halted CPU, IME set, IF = 0x05 (VBlank and
Timer both pending), IE = 0x1f, LCD disabled, timer disabled, stack in
HRAM. -/
def cexMultiPending : Cpu :=
  sampleCpu (sampleMmu (.mbc1 (sampleMbc1 zeroBuf)) ppuOff timer0 0x05 0x1f)
    0x1234 0xfffe true true

/-- C2 counterexample state: about to execute EI (opcode 0xfb at PC = 0x100)
with IF = IE = 0x01 already pending and IME clear. -/
def cexEiPending : Cpu :=
  sampleCpu
    (sampleMmu (.mbc1 (sampleMbc1 (fun a => if a = 0x100 then 0xfb else 0))) ppuOff timer0 1 1)
    0x100 0xfffe false false

/-- C4 counterexample state: LCD on, HBlank mode with STAT interrupt-enable
bits (including bit 6) all clear, LY = 5 one line before LYC = 6. -/
def cexLycPpu : Ppu :=
  { ppuOff with lcdc := 0x80, stat := 0, ly := 5, lyc := 6, counter := 0 }

/-- C5 state: timer with TAC = 0x05, TMA = 0x80, internal counter 0, inside
an MMU (LCD disabled so only the timer ticks); TIMA is written via the bus
in the theorems. -/
def cexTimerMmu : Mmu :=
  sampleMmu (.mbc1 (sampleMbc1 zeroBuf)) ppuOff
    { tima := 0, tma := 0x80, tac := 0x05, counter := 0, irq_timer := false } 0 0

/-- C7 counterexample state: PPU in mode 3 (Drawing), WRAM filled with 5s;
DMA source page 0xc0 reads 5s but the OAM writes are dropped and OAM reads
return 0xff. -/
def cexDmaMmu : Mmu :=
  { sampleMmu (.mbc1 (sampleMbc1 zeroBuf)) { ppuOff with stat := 3 } timer0 0 0 with
    wram := { bank_index := 0, wram := fun _ => 5 } }

/-- C8 counterexample state: SP points into the ROM region (0x1002), so the
pushed bytes are dropped and POP AF reads ROM zeros; A = 7 and the carry
flag is set beforehand. -/
def cexPushRom : Cpu :=
  { sampleCpu (sampleMmu (.mbc1 (sampleMbc1 zeroBuf)) ppuOff timer0 0 0)
      0x200 0x1002 false false with a := 7, carry_flag := true, f := 0x10 }

/-- A plain MMU used by several witnesses. -/
def mmuW : Mmu := sampleMmu (.mbc1 (sampleMbc1 zeroBuf)) ppuOff timer0 0 0

/-- MBC1 cartridge used by the C6 witness: mode 0, rom_low = 4, 4 banks, so
the selected bank equals num_banks. -/
def mbc1W : Mbc1 := { sampleMbc1 zeroBuf with rom_bank_no := 4, num_rom_banks := 4 }

/-- MMU in PPU mode 0 (HBlank) used by the C7 witness. -/
def mmuDmaW : Mmu :=
  sampleMmu (.mbc1 (sampleMbc1 zeroBuf)) { ppuOff with stat := 0 } timer0 0 0

/-- CPU with its stack in HRAM used by the C8 witness. -/
def cpuW : Cpu :=
  { sampleCpu mmuW 0x200 0xfffe false false with a := 7, zero_flag := true, carry_flag := true }

/-- The interrupt a bit of the handle_interrupt loop dispatches. -/
def bit_interrupt (b : Nat) : Interrupt :=
  if b = 0 then .vblank
  else if b = 1 then .lcdstat
  else if b = 2 then .timer
  else if b = 3 then .serial
  else .joypad

/-- The loop bits whose IF & IE bit is pending, in loop order. -/
def dispatched (src : Nat) (bits : List Nat) : List Nat :=
  bits.filter (fun b => src &&& (1 <<< b) = 1 <<< b)

/-- The peripherals raise no interrupt during an Mmu.update: LCD disabled,
timer disabled, all IRQ latches clear. -/
def QuietMmu (m : Mmu) : Prop :=
  (m.ppu.lcdc >>> 7) &&& 1 ≠ 1 ∧ m.ppu.irq_vblank = false ∧ m.ppu.irq_lcdc = false ∧
  m.timer.tac &&& 4 = 0 ∧ m.timer.irq_timer = false ∧ m.joypad.irq = false

/-- Merging a byte below 256 into a page shifted by 8 bits is addition. -/
theorem lor_low8 (a b : Nat) (hb : b < 256) : (a <<< 8) ||| b = a * 256 + b := by
  have h : 2 ^ 8 * a + b = 2 ^ 8 * a ||| b := Nat.mul_add_lt_is_or (by omega) a
  rw [Nat.shiftLeft_eq, Nat.mul_comm a (2 ^ 8), ← h]

/-- x &&& 0xff is x mod 256. -/
theorem and_0xff (x : Nat) : x &&& 0xff = x % 256 := by
  simpa using Nat.and_pow_two_sub_one_eq_mod x 8

/-- x &&& 0x7f is x mod 128. -/
theorem and_0x7f (x : Nat) : x &&& 0x7f = x % 128 := by
  simpa using Nat.and_pow_two_sub_one_eq_mod x 7

/-- x &&& 0x1fff is x mod 0x2000. -/
theorem and_0x1fff (x : Nat) : x &&& 0x1fff = x % 8192 := by
  simpa using Nat.and_pow_two_sub_one_eq_mod x 13

/-- x &&& 0x3fff is x mod 0x4000. -/
theorem and_0x3fff (x : Nat) : x &&& 0x3fff = x % 16384 := by
  simpa using Nat.and_pow_two_sub_one_eq_mod x 14

/-- Shared: Ppu::update returns its state unchanged when LCDC bit 7 is
clear. -/
theorem ppu_update_disabled (p : Ppu) (n : Nat) (h : (p.lcdc >>> 7) &&& 1 ≠ 1) :
    p.update n = p := by
  have hb : p.is_lcd_and_ppu_enable = false := by
    unfold Ppu.is_lcd_and_ppu_enable
    exact decide_eq_false h
  unfold Ppu.update
  rw [hb]
  simp

/-- C9: while LCDC bit 7 is clear (LCD disabled), Ppu::update(n) is a no-op
for every n: LY, the STAT mode bits, the scanline cycle counter, the
framebuffer and both interrupt lines irq_vblank and irq_lcdc are left
unchanged, so a disabled PPU never raises an interrupt and never renders. -/
theorem c9_disabled_ppu_noop (p : Ppu) (n : Nat) (h : (p.lcdc >>> 7) &&& 1 ≠ 1) :
    p.update n = p :=
  ppu_update_disabled p n h

/-- C9 witness: the reset PPU with LCDC = 0 is untouched by an update of a
full scanline. -/
theorem c9_witness : Ppu.update ppuOff 456 = ppuOff :=
  c9_disabled_ppu_noop ppuOff 456 (by decide)

/-- C10: a write of v >= 8 to the WRAM bank-select register 0xff70 panics
(modelled as none) rather than masking or ignoring the value; a write of
v < 8 stores the bank index; and bank indices 0 and 1 both map reads of
0xd000..0xdfff to the same physical bank-1 bytes. -/
theorem c10_wram_bank_select (m : Mmu) (v : Nat) :
    (8 ≤ v → m.write_byte 0xff70 v = none) ∧
    (v < 8 → m.write_byte 0xff70 v =
      some { m with wram := { m.wram with bank_index := v } }) ∧
    (∀ (m2 : Mmu) (a : Nat), 0xd000 ≤ a → a ≤ 0xdfff →
      Mmu.read_byte { m2 with wram := { m2.wram with bank_index := 0 } } a =
        some (m2.wram.wram (a &&& 0x1fff)) ∧
      Mmu.read_byte { m2 with wram := { m2.wram with bank_index := 1 } } a =
        some (m2.wram.wram (a &&& 0x1fff))) := by
  refine ⟨fun hv => ?_, fun hv => ?_, fun m2 a h1 h2 => ?_⟩
  · simp [Mmu.write_byte, Mmu.write_byte_aux, Wram.set_bank_index, hv]
  · simp [Mmu.write_byte, Mmu.write_byte_aux, Wram.set_bank_index, Nat.not_le.mpr hv]
  · have hmask : a &&& 0x1fff = a - 0xc000 := by
      rw [and_0x1fff]
      omega
    have hr : ∀ w : Nat → Nat, Wram.read_byte { bank_index := 0, wram := w } (a &&& 0x1fff) =
        w (a &&& 0x1fff) ∧
        Wram.read_byte { bank_index := 1, wram := w } (a &&& 0x1fff) = w (a &&& 0x1fff) := by
      intro w
      rw [Wram.read_byte, Wram.read_byte, hmask]
      constructor <;> rw [if_neg (by omega), if_pos (by omega)] <;> simp
    constructor <;>
      · rw [Mmu.read_byte]
        rw [if_neg (by omega), if_neg (by omega), if_neg (by omega), if_pos (by omega)]
        exact congrArg some ((hr m2.wram.wram).1)

/-- C10 witness: on a concrete MMU, writing 9 to 0xff70 panics, writing 3
stores bank 3, and banks 0 and 1 read the same 0xd123 byte. -/
theorem c10_witness :
    Mmu.write_byte mmuW 0xff70 9 = none ∧
    Mmu.write_byte mmuW 0xff70 3 =
      some { mmuW with wram := { mmuW.wram with bank_index := 3 } } ∧
    Mmu.read_byte { mmuW with wram := { mmuW.wram with bank_index := 0 } } 0xd123 =
      some (mmuW.wram.wram (0xd123 &&& 0x1fff)) ∧
    Mmu.read_byte { mmuW with wram := { mmuW.wram with bank_index := 1 } } 0xd123 =
      some (mmuW.wram.wram (0xd123 &&& 0x1fff)) :=
  ⟨(c10_wram_bank_select mmuW 9).1 (by omega),
   (c10_wram_bank_select mmuW 3).2.1 (by omega),
   ((c10_wram_bank_select mmuW 0).2.2 mmuW 0xd123 (by omega) (by omega)).1,
   ((c10_wram_bank_select mmuW 0).2.2 mmuW 0xd123 (by omega) (by omega)).2⟩

/-- Shared: the source's MBC1::rom_bank_no equals the bank formula as the
claim words it. -/
theorem mbc1_bank_refines (c : Mbc1) : c.effective_rom_bank = mbc1_claim_bank c := by
  unfold Mbc1.effective_rom_bank mbc1_claim_bank
  cases hm : c.mode_flag <;> simp [hm]

/-- C6: every MBC1 read in 0x4000..0x7fff is served from the ROM bank
B = (mode==0 ? ram_or_upper<<5 : 0) | rom_low, with 0x00/0x20/0x40/0x60
bumped to B+1 and the result masked with num_banks-1; and when the
selected (post-bump, pre-mask) bank equals num_banks (a power of two) the
read yields the corresponding byte of bank 0. -/
theorem c6_mbc1_rom_bank (c : Mbc1) (addr : Nat) (h1 : 0x4000 ≤ addr) (h2 : addr ≤ 0x7fff) :
    c.read addr = some (c.rom ((addr &&& 0x3fff) + 16 * 1024 * mbc1_claim_bank c)) ∧
    (∀ k : Nat, c.num_rom_banks = 2 ^ k → mbc1_selected_bank c = c.num_rom_banks →
      c.read addr = some (c.rom (addr &&& 0x3fff))) := by
  have hread : c.read addr = some (c.rom ((addr &&& 0x3fff) + 16 * 1024 * mbc1_claim_bank c)) := by
    rw [Mbc1.read, if_neg (by omega), if_pos (by omega), mbc1_bank_refines]
  refine ⟨hread, fun k hk hsel => ?_⟩
  have hz : mbc1_claim_bank c = 0 := by
    have hcb : mbc1_claim_bank c = mbc1_selected_bank c &&& (c.num_rom_banks - 1) := rfl
    rw [hcb, hsel, hk, Nat.and_pow_two_sub_one_eq_mod, Nat.mod_self]
  rw [hread, hz]
  norm_num

/-- C6 witness: mode 0, rom_low = 4, num_banks = 4, so the selected bank
equals num_banks and the read at 0x4567 yields the bank-0 byte at offset
0x0567. -/
theorem c6_witness :
    Mbc1.read mbc1W 0x4567 = some (mbc1W.rom (0x4567 &&& 0x3fff)) :=
  (c6_mbc1_rom_bank mbc1W 0x4567 (by omega) (by omega)).2 2 (by decide) (by decide)

/-- C5 counterexample: with TAC = 0x05, TMA = 0x80 and the internal counter
at 0, writing 0xfe to TIMA (0xff05) and then delivering three 16-cycle
timer updates (48 cycles in total) leaves TIMA = 0x81, not 0x80 as the
claim states: the increments at the 16-, 32- and 48-cycle boundaries give
0xff, then the overflow reload to TMA = 0x80, then 0x81. -/
theorem c5_counterexample :
    ((cexTimerMmu.write_byte 0xff05 0xfe).map (fun m =>
        let m := ((m.update 16).update 16).update 16
        (m.timer.tima, m.interrupt_flag &&& 0x04))) = some (0x81, 0x04) ∧
    (0x81 : Nat) ≠ 0x80 := by
  constructor
  · rfl
  · decide

/-- C5 amended: in the same scenario, after timer updates totalling 32
cycles TIMA is 0x80 with IF bit 2 set (the overflow reload the claim
describes), and after 48 cycles TIMA is 0x81 with IF bit 2 still set. -/
theorem c5_timer_overflow_amended :
    ((cexTimerMmu.write_byte 0xff05 0xfe).map (fun m =>
        let m := (m.update 16).update 16
        (m.timer.tima, m.interrupt_flag &&& 0x04))) = some (0x80, 0x04) ∧
    ((cexTimerMmu.write_byte 0xff05 0xfe).map (fun m =>
        let m := ((m.update 16).update 16).update 16
        (m.timer.tima, m.interrupt_flag &&& 0x04))) = some (0x81, 0x04) := by
  constructor <;> rfl

/-- C4 counterexample: with STAT = 0 (bit 6 clear, HBlank mode), LY = 5,
LYC = 6 and the LCD enabled, a 204-cycle update advances LY to 6 = LYC and
raises irq_lcdc even though STAT bit 6 is clear, contradicting the claim
that the coincidence raises irq_lcdc only when STAT bit 6 is set. -/
theorem c4_counterexample :
    (cexLycPpu.update 204).ly = 6 ∧ cexLycPpu.lyc = 6 ∧
    (cexLycPpu.stat >>> 6) &&& 1 = 0 ∧
    (cexLycPpu.update 204).irq_lcdc = true := by
  refine ⟨rfl, rfl, rfl, rfl⟩

/-- C4 amended: the LY=LYC comparison bit (STAT bit 2) is recomputed on a
write to 0xff45 that changes LYC, and by update_lyc_interrupt (the routine
the update() LY changes invoke); whenever the recomputation finds LY = LYC
it sets STAT bit 2 and raises irq_lcdc unconditionally, with no check of
STAT bit 6 and no transition requirement; when LY differs it clears bit 2
and leaves irq_lcdc alone. -/
theorem c4_lyc_recompute_amended :
    (∀ (p : Ppu) (v : Nat), p.lyc ≠ v →
      (Ppu.write p 0xff45 v).map (fun q => (q.lyc, q.irq_lcdc, q.stat)) =
        some (v, if p.ly = v then true else p.irq_lcdc,
              if p.ly = v then p.stat ||| 0x4 else p.stat &&& 0xfb)) ∧
    (∀ p : Ppu,
      p.update_lyc_interrupt.irq_lcdc = (if p.ly = p.lyc then true else p.irq_lcdc) ∧
      p.update_lyc_interrupt.stat = (if p.ly = p.lyc then p.stat ||| 0x4 else p.stat &&& 0xfb)) := by
  constructor
  · intro p v hne
    rw [Ppu.write]
    rw [if_neg (by omega), if_neg (by omega), if_neg (by omega), if_neg (by omega),
        if_neg (by omega), if_neg (by omega), if_neg (by omega), if_pos rfl]
    rw [if_pos hne]
    unfold Ppu.update_lyc_interrupt
    by_cases h : p.ly = v <;> simp [h]
  · intro p
    unfold Ppu.update_lyc_interrupt
    by_cases h : p.ly = p.lyc <;> simp [h]

/-- C4 witness: writing LYC = 6 on the reset PPU (LY = 0) stores 6, leaves
irq_lcdc clear and clears STAT bit 2. -/
theorem c4_witness :
    (Ppu.write ppuOff 0xff45 6).map (fun q => (q.lyc, q.irq_lcdc, q.stat)) =
      some (6, false, 0x02) := by
  have h := c4_lyc_recompute_amended.1 ppuOff 6 (by decide)
  simpa using h

/-- Shared: Mmu::write_byte into the HRAM window 0xff80..0xfffe stores the
byte into hram at addr &&& 0x7f and changes nothing else. -/
theorem mmu_write_hram (m : Mmu) (addr v : Nat) (h1 : 0xff80 ≤ addr) (h2 : addr ≤ 0xfffe) :
    m.write_byte addr v = some { m with hram := setf m.hram (addr &&& 0x7f) v } := by
  rw [Mmu.write_byte, Mmu.write_byte_aux]
  repeat rw [if_neg (by omega)]
  rw [if_pos (by omega)]

/-- Shared: Mmu::read_byte of the HRAM window 0xff80..0xfffe returns the
hram byte at addr &&& 0x7f. -/
theorem mmu_read_hram (m : Mmu) (addr : Nat) (h1 : 0xff80 ≤ addr) (h2 : addr ≤ 0xfffe) :
    m.read_byte addr = some (m.hram (addr &&& 0x7f)) := by
  rw [Mmu.read_byte]
  repeat rw [if_neg (by omega)]
  rw [if_pos (by omega)]

/-- Shared: popping the packed flag byte restores the four flag booleans. -/
theorem set_flags_get_byte (t s : Cpu) :
    (t.set_flags_from_byte s.get_byte_from_flags).zero_flag = s.zero_flag ∧
    (t.set_flags_from_byte s.get_byte_from_flags).subtraction_flag = s.subtraction_flag ∧
    (t.set_flags_from_byte s.get_byte_from_flags).half_carry_flag = s.half_carry_flag ∧
    (t.set_flags_from_byte s.get_byte_from_flags).carry_flag = s.carry_flag := by
  unfold Cpu.get_byte_from_flags Cpu.set_flags_from_byte
  unfold Cpu.set_zero_flag Cpu.set_subtraction_flag Cpu.set_half_carry_flag Cpu.set_carry_flag
  cases hz : s.zero_flag <;> cases hn : s.subtraction_flag <;>
    cases hh : s.half_carry_flag <;> cases hc : s.carry_flag <;> simp <;> decide

/-- Shared: the packed flag byte is below 256. -/
theorem get_byte_from_flags_lt (s : Cpu) : s.get_byte_from_flags < 256 := by
  unfold Cpu.get_byte_from_flags
  split_ifs <;> decide

/-- Shared: the packed flag byte preserved by pop's setter is also the
value with a zero low nibble. -/
theorem get_byte_from_flags_low_nibble (s : Cpu) : s.get_byte_from_flags &&& 0x0f = 0 := by
  unfold Cpu.get_byte_from_flags
  split_ifs <;> decide

/-- The packed flag byte only depends on the flag fields. -/
theorem get_byte_from_flags_sp (s : Cpu) (x : Nat) :
    Cpu.get_byte_from_flags { s with sp := x } = s.get_byte_from_flags := rfl

/-- C8 counterexample: with SP = 0x1002 the pushed bytes land in the ROM
region and are dropped, so PUSH AF; POP AF reads back ROM zeros: A goes
from 7 to 0 and the carry flag from set to clear, refuting the claim for
every CPU state. -/
theorem c8_counterexample :
    ((cexPushRom.push_nn .af).bind (fun s1 => s1.pop_nn .af)).map
        (fun s2 => (s2.a, s2.carry_flag)) = some (0, false) ∧
    ((0 : Nat), false) ≠ ((7 : Nat), true) := by
  constructor
  · rfl
  · decide

/-- Projections of POP AF's flag restoration: popping the byte PUSH AF
stored restores A and the four flag booleans. -/
theorem pop_af_components (t s : Cpu) (hta : t.a = s.a) :
    ((t.set_flags_from_byte s.get_byte_from_flags).a,
     (t.set_flags_from_byte s.get_byte_from_flags).zero_flag,
     (t.set_flags_from_byte s.get_byte_from_flags).subtraction_flag,
     (t.set_flags_from_byte s.get_byte_from_flags).half_carry_flag,
     (t.set_flags_from_byte s.get_byte_from_flags).carry_flag)
    = (s.a, s.zero_flag, s.subtraction_flag, s.half_carry_flag, s.carry_flag) := by
  have h := set_flags_get_byte t s
  have ha2 : (t.set_flags_from_byte s.get_byte_from_flags).a = t.a := rfl
  rw [h.1, h.2.1, h.2.2.1, h.2.2.2, ha2, hta]

/-- C8 amended: PUSH AF always stores an F byte whose low nibble is zero,
and PUSH AF followed by POP AF is the identity on A and on the four flags
Z, N, H, C provided the two stack bytes land in always-writable plain RAM
(here: the HRAM window 0xff80..0xfffe). -/
theorem c8_push_pop_af_amended (s : Cpu) (ha : s.a < 256)
    (h1 : 0xff82 ≤ s.sp) (h2 : s.sp ≤ 0xffff) :
    s.get_byte_from_flags &&& 0x0f = 0 ∧
    ((s.push_nn .af).bind (fun s1 => s1.pop_nn .af)).map
        (fun s2 => (s2.a, s2.zero_flag, s2.subtraction_flag, s2.half_carry_flag, s2.carry_flag))
      = some (s.a, s.zero_flag, s.subtraction_flag, s.half_carry_flag, s.carry_flag) := by
  refine ⟨get_byte_from_flags_low_nibble s, ?_⟩
  have hfb : s.get_byte_from_flags < 256 := get_byte_from_flags_lt s
  have hsub : wsub16 s.sp 2 = s.sp - 2 := by unfold wsub16; omega
  have hlow : ((s.a <<< 8) ||| s.get_byte_from_flags) &&& 0xff = s.get_byte_from_flags := by
    rw [lor_low8 _ _ hfb, and_0xff]
    omega
  have h28 : (2 : Nat) ^ 8 = 256 := by norm_num
  have hhigh : u8 (((s.a <<< 8) ||| s.get_byte_from_flags) >>> 8) = s.a := by
    rw [lor_low8 _ _ hfb, Nat.shiftRight_eq_div_pow, h28]
    unfold u8
    omega
  have hu : u16 (s.sp - 2 + 1) = s.sp - 1 := by
    unfold u16
    omega
  have hw1 := mmu_write_hram s.mmu (s.sp - 2) s.get_byte_from_flags (by omega) (by omega)
  have hpush : s.push_nn .af = some
      { s with
        sp := s.sp - 2
        clock := u32 (s.clock + 16)
        mmu := { s.mmu with hram := setf (setf s.mmu.hram ((s.sp - 2) &&& 0x7f) s.get_byte_from_flags) ((s.sp - 1) &&& 0x7f) s.a } } := by
    unfold Cpu.push_nn
    simp only [hsub, get_byte_from_flags_sp]
    unfold Cpu.write_word
    simp only [hlow]
    rw [hw1]
    simp only [hu, hhigh]
    have hw2 := mmu_write_hram
      { s.mmu with hram := setf s.mmu.hram ((s.sp - 2) &&& 0x7f) s.get_byte_from_flags }
      (s.sp - 1) s.a (by omega) (by omega)
    rw [hw2]
    rfl
  rw [hpush]
  have hne : (s.sp - 2) &&& 0x7f ≠ (s.sp - 1) &&& 0x7f := by
    rw [and_0x7f, and_0x7f]
    omega
  have hH1 : (setf (setf s.mmu.hram ((s.sp - 2) &&& 0x7f) s.get_byte_from_flags) ((s.sp - 1) &&& 0x7f) s.a) ((s.sp - 2) &&& 0x7f) = s.get_byte_from_flags := by
    simp [setf, hne]
  have hH2 : (setf (setf s.mmu.hram ((s.sp - 2) &&& 0x7f) s.get_byte_from_flags) ((s.sp - 1) &&& 0x7f) s.a) ((s.sp - 1) &&& 0x7f) = s.a := by
    simp [setf]
  have hr1 := mmu_read_hram
    { s.mmu with hram := setf (setf s.mmu.hram ((s.sp - 2) &&& 0x7f) s.get_byte_from_flags) ((s.sp - 1) &&& 0x7f) s.a }
    (s.sp - 2) (by omega) (by omega)
  have hr2 := mmu_read_hram
    { s.mmu with hram := setf (setf s.mmu.hram ((s.sp - 2) &&& 0x7f) s.get_byte_from_flags) ((s.sp - 1) &&& 0x7f) s.a }
    (s.sp - 1) (by omega) (by omega)
  simp only [hH1] at hr1
  simp only [hH2] at hr2
  simp only [Option.bind]
  unfold Cpu.pop_nn
  rw [hr1]
  simp only [hu]
  rw [hr2]
  simp only [Option.map_some]
  exact congrArg some (pop_af_components _ s rfl)

/-- C8 witness: around HRAM stacks the identity holds, here with A = 7 and
Z and C set. -/
theorem c8_witness :
    cpuW.get_byte_from_flags &&& 0x0f = 0 ∧
    ((cpuW.push_nn .af).bind (fun s1 => s1.pop_nn .af)).map
        (fun s2 => (s2.a, s2.zero_flag, s2.subtraction_flag, s2.half_carry_flag, s2.carry_flag))
      = some (cpuW.a, cpuW.zero_flag, cpuW.subtraction_flag, cpuW.half_carry_flag, cpuW.carry_flag) :=
  c8_push_pop_af_amended cpuW (by decide) (by decide) (by decide)

/-- Shared: Timer::update with the timer disabled only advances the
internal counter. -/
theorem timer_update_disabled (t : Timer) (c : Nat) (h : t.tac &&& 4 = 0) :
    t.update c = { t with counter := u16 (t.counter + c) } := by
  unfold Timer.update
  simp [h]

/-- Shared: Mmu::update over quiet peripherals only advances the timer's
internal counter. -/
theorem mmu_update_quiet (m : Mmu) (c : Nat) (h : QuietMmu m) :
    m.update c = { m with timer := { m.timer with counter := u16 (m.timer.counter + c) } } := by
  obtain ⟨hl, hv, hc, ht, hi, hj⟩ := h
  unfold Mmu.update
  simp only [ppu_update_disabled _ _ hl, timer_update_disabled _ _ ht]
  simp [hv, hc, hi, hj]

/-- A masked single bit is either clear or the bit itself. -/
theorem and_pow_cases (src bit : Nat) :
    src &&& (1 <<< bit) = 0 ∨ src &&& (1 <<< bit) = 1 <<< bit := by
  rw [Nat.one_shiftLeft, Nat.and_two_pow]
  cases src.testBit bit <;> simp

/-- One loop iteration of handle_interrupt on a pending bit dispatches that
bit's interrupt. -/
theorem interrupt_bit_step_pend (src bit : Nat) (p : Cpu × Nat) (hb : bit < 5)
    (hd : src &&& (1 <<< bit) = 1 <<< bit) :
    Cpu.interrupt_bit_step src bit p =
      (Cpu.exec_interrupt (bit_interrupt bit) p.1).map (fun c => (c, p.2 + 1)) := by
  interval_cases bit <;> (unfold Cpu.interrupt_bit_step; rw [hd]) <;> rfl

/-- One loop iteration of handle_interrupt on a clear bit is a no-op. -/
theorem interrupt_bit_step_skip (src bit : Nat) (p : Cpu × Nat) (hb : bit < 5)
    (hd : src &&& (1 <<< bit) = 0) :
    Cpu.interrupt_bit_step src bit p = some p := by
  interval_cases bit <;> (unfold Cpu.interrupt_bit_step; rw [hd]) <;> rfl

theorem write_word_hram (s : Cpu) (addr v : Nat) (h1 : 0xff80 ≤ addr) (h2 : addr + 1 ≤ 0xfffe) :
    s.write_word addr v = some { s with mmu := { s.mmu with hram := setf (setf s.mmu.hram (addr &&& 0x7f) (v &&& 0xff)) ((addr + 1) &&& 0x7f) (u8 (v >>> 8)) } } := by
  unfold Cpu.write_word
  dsimp only []
  have hu : u16 (addr + 1) = addr + 1 := by unfold u16; omega
  have hw1 := mmu_write_hram s.mmu addr (v &&& 0xff) (by omega) (by omega)
  rw [hw1]
  simp only [hu]
  have hw2 := mmu_write_hram { s.mmu with hram := setf s.mmu.hram (addr &&& 0x7f) (v &&& 0xff) }
    (addr + 1) (u8 (v >>> 8)) (by omega) (by omega)
  dsimp only [] at hw2
  rw [hw2]

theorem exec_interrupt_effect (it : Interrupt) (s : Cpu)
    (hq : QuietMmu s.mmu) (hsp1 : 0xff82 ≤ s.sp) (hsp2 : s.sp ≤ 0xffff) :
    Cpu.exec_interrupt it s = some
      { s with
        ime := false
        halt := false
        pc := it.vector
        sp := s.sp - 2
        clock := u32 (s.clock + 20)
        mmu := { s.mmu with
                 interrupt_flag := s.mmu.interrupt_flag &&& it.mask
                 timer := { s.mmu.timer with counter := u16 (s.mmu.timer.counter + 20) }
                 hram := setf (setf s.mmu.hram ((s.sp - 2) &&& 0x7f) (s.pc &&& 0xff)) ((s.sp - 1) &&& 0x7f) (u8 (s.pc >>> 8)) } } := by
  have hsub : wsub16 s.sp 2 = s.sp - 2 := by unfold wsub16; omega
  have e1 : s.sp - 2 + 1 = s.sp - 1 := by omega
  unfold Cpu.exec_interrupt Mmu.reset_interrupt
  dsimp only []
  simp only [hsub]
  have hw := write_word_hram
    { s with
      ime := false
      halt := false
      sp := s.sp - 2
      mmu := { s.mmu with interrupt_flag := s.mmu.interrupt_flag &&& it.mask } }
    (s.sp - 2) s.pc (by omega) (by omega)
  dsimp only [] at hw
  rw [hw]
  unfold Cpu.add_clock
  dsimp only []
  simp only [e1]
  have hup := mmu_update_quiet
    { s.mmu with
      interrupt_flag := s.mmu.interrupt_flag &&& it.mask
      hram := setf (setf s.mmu.hram ((s.sp - 2) &&& 0x7f) (s.pc &&& 0xff)) ((s.sp - 1) &&& 0x7f) (u8 (s.pc >>> 8)) }
    20 hq
  dsimp only [] at hup
  rw [hup]

theorem interrupt_fold_effect (src : Nat) (bits : List Nat) (s : Cpu) (n : Nat)
    (hb : ∀ b ∈ bits, b < 5)
    (hq : QuietMmu s.mmu)
    (hsp1 : 0xff80 + 2 * bits.length ≤ s.sp) (hsp2 : s.sp ≤ 0xffff) :
    ∃ s1, (bits.foldlM (fun p bit => Cpu.interrupt_bit_step src bit p) ((s, n) : Cpu × Nat)) =
        some (s1, n + (dispatched src bits).length) ∧
      s1.pc = (dispatched src bits).foldl (fun _d b => (bit_interrupt b).vector) s.pc ∧
      s1.sp = s.sp - 2 * (dispatched src bits).length ∧
      s1.ime = (if (dispatched src bits).length = 0 then s.ime else false) ∧
      s1.halt = (if (dispatched src bits).length = 0 then s.halt else false) ∧
      s1.mmu.interrupt_flag =
        (dispatched src bits).foldl (fun fl b => fl &&& (bit_interrupt b).mask) s.mmu.interrupt_flag ∧
      s1.mmu.interrupt_enable = s.mmu.interrupt_enable := by
  induction bits generalizing s n with
  | nil =>
    refine ⟨s, ?_, ?_, ?_, ?_, ?_, ?_, rfl⟩ <;> simp [dispatched]
  | cons b rest ih =>
    have hb5 : b < 5 := hb b (List.mem_cons_self b rest)
    have hlen : (b :: rest).length = rest.length + 1 := rfl
    rcases and_pow_cases src b with hz | hp
    · have hstep := interrupt_bit_step_skip src b (s, n) hb5 hz
      rw [List.foldlM_cons, hstep]
      simp only [Option.bind_eq_bind, Option.some_bind]
      have hd : dispatched src (b :: rest) = dispatched src rest := by
        have : ¬ (src &&& (1 <<< b) = 1 <<< b) := by
          rw [hz]
          have : (0:Nat) < 1 <<< b := by
            rw [Nat.one_shiftLeft]
            exact Nat.two_pow_pos b
          omega
        simp [dispatched, List.filter_cons, this]
      rw [hd]
      exact ih s n (fun x hx => hb x (List.mem_cons_of_mem b hx)) hq (by omega) hsp2
    · have hstep := interrupt_bit_step_pend src b (s, n) hb5 hp
      rw [List.foldlM_cons, hstep,
          exec_interrupt_effect (bit_interrupt b) s hq (by rw [hlen] at hsp1; omega) hsp2]
      simp only [Option.map_some', Option.bind_eq_bind, Option.some_bind]
      have hd : dispatched src (b :: rest) = b :: dispatched src rest := by
        simp [dispatched, List.filter_cons, hp]
      obtain ⟨s1, hfold, hpc, hsp, hime, hhalt, hif, hie⟩ := ih
        { s with
          ime := false
          halt := false
          pc := (bit_interrupt b).vector
          sp := s.sp - 2
          clock := u32 (s.clock + 20)
          mmu := { s.mmu with
                   interrupt_flag := s.mmu.interrupt_flag &&& (bit_interrupt b).mask
                   timer := { s.mmu.timer with counter := u16 (s.mmu.timer.counter + 20) }
                   hram := setf (setf s.mmu.hram ((s.sp - 2) &&& 0x7f) (s.pc &&& 0xff)) ((s.sp - 1) &&& 0x7f) (u8 (s.pc >>> 8)) } }
        (n + 1) (fun x hx => hb x (List.mem_cons_of_mem b hx)) hq
        (by dsimp only []; rw [hlen] at hsp1; omega) (by dsimp only []; omega)
      dsimp only [] at hfold hpc hsp hime hhalt hif hie
      refine ⟨s1, ?_, ?_, ?_, ?_, ?_, ?_, hie⟩
      · rw [hfold, hd]
        have : n + 1 + (dispatched src rest).length = n + ((dispatched src rest).length + 1) := by omega
        rw [this]
        rfl
      · rw [hpc, hd, List.foldl_cons]
      · rw [hsp, hd]
        dsimp only [List.length_cons]
        rw [hlen] at hsp1
        omega
      · rw [hime, hd]
        dsimp only [List.length_cons]
        by_cases hr : (dispatched src rest).length = 0 <;> simp [hr]
      · rw [hhalt, hd]
        dsimp only [List.length_cons]
        by_cases hr : (dispatched src rest).length = 0 <;> simp [hr]
      · rw [hif, hd, List.foldl_cons]

theorem pending_count_range5 (src : Nat) :
    (dispatched src (List.range 5)).length = pending_count src := rfl

theorem dispatched_range5_closed (src d x : Nat) (hx : x < 256) :
    (dispatched src (List.range 5)).foldl (fun _d b => (bit_interrupt b).vector) d
      = highest_vector src d ∧
    (dispatched src (List.range 5)).foldl (fun fl b => fl &&& (bit_interrupt b).mask) x
      = x &&& (0xff ^^^ (src &&& 0x1f)) := by
  have h31 : src &&& 31 < 32 := by
    have h := Nat.and_pow_two_sub_one_eq_mod src 5
    norm_num at h
    omega
  have h1 : src &&& 1 = src &&& 31 &&& 1 := by
    rw [Nat.and_assoc, show (31 : Nat) &&& 1 = 1 by decide]
  have h2 : src &&& 2 = src &&& 31 &&& 2 := by
    rw [Nat.and_assoc, show (31 : Nat) &&& 2 = 2 by decide]
  have h4 : src &&& 4 = src &&& 31 &&& 4 := by
    rw [Nat.and_assoc, show (31 : Nat) &&& 4 = 4 by decide]
  have h8 : src &&& 8 = src &&& 31 &&& 8 := by
    rw [Nat.and_assoc, show (31 : Nat) &&& 8 = 8 by decide]
  have h16 : src &&& 16 = src &&& 31 &&& 16 := by
    rw [Nat.and_assoc, show (31 : Nat) &&& 16 = 16 by decide]
  rw [show List.range 5 = [0, 1, 2, 3, 4] from rfl]
  unfold dispatched highest_vector
  simp only [List.filter_cons, List.filter_nil, Nat.reduceShiftLeft]
  simp only [h1, h2, h4, h8, h16]
  generalize src &&& 31 = m at h31 ⊢
  interval_cases m <;> refine ⟨by rfl, ?_⟩ <;>
    (repeat first
      | rw [if_pos (by decide)]
      | rw [if_neg (by decide)]) <;>
    simp only [List.foldl_cons, List.foldl_nil] <;>
    first
    | ((try simp only [Nat.and_assoc])
       congr 1 <;> decide)
    | (rw [show ((0xff : Nat) ^^^ 0) = 255 from rfl, and_0xff]
       omega)

/-- C1 counterexample: from cexMultiPending (IME set, IF & IE = 0x05: VBlank
bit 0 and Timer bit 2 both pending), one step() dispatches BOTH pending
interrupts, not just the lowest-numbered one: the dispatch count is 2, PC
ends at the Timer vector 0x50 (not the VBlank vector 0x40), SP drops by 4,
and both IF bits are cleared. -/
theorem c1_counterexample :
    (Cpu.step cexMultiPending).map
        (fun p => (p.1.pc, p.1.sp, p.1.mmu.interrupt_flag, p.2.2.2)) =
      some (0x50, 0xfffa, 0x00, 2) ∧ (0x50 : Nat) ≠ 0x40 :=
  ⟨rfl, by decide⟩

/-- Shared: the closed form of Cpu::handle_interrupt when at least one
bit of the IF & IE snapshot is pending, over a quiet MMU with the stack in
HRAM. -/
theorem handle_interrupt_closed (s : Cpu)
    (hq : QuietMmu s.mmu) (hif : s.mmu.interrupt_flag < 256)
    (hsp1 : 0xff8a ≤ s.sp) (hsp2 : s.sp ≤ 0xffff)
    (hp : 1 ≤ pending_count (s.mmu.interrupt_flag &&& s.mmu.interrupt_enable)) :
    (Cpu.handle_interrupt s).map
        (fun p => (p.1.pc, p.1.sp, p.1.ime, p.1.halt, p.1.mmu.interrupt_flag, p.2)) =
      some
        (highest_vector (s.mmu.interrupt_flag &&& s.mmu.interrupt_enable) s.pc,
         s.sp - 2 * pending_count (s.mmu.interrupt_flag &&& s.mmu.interrupt_enable),
         false, false,
         s.mmu.interrupt_flag &&&
           (0xff ^^^ (s.mmu.interrupt_flag &&& s.mmu.interrupt_enable &&& 0x1f)),
         pending_count (s.mmu.interrupt_flag &&& s.mmu.interrupt_enable)) := by
  unfold Cpu.handle_interrupt
  dsimp only []
  obtain ⟨s1, hfold, hpc, hsp, hime, hhalt, hifl, hie⟩ :=
    interrupt_fold_effect (s.mmu.interrupt_flag &&& s.mmu.interrupt_enable) (List.range 5) s 0
      (fun b hb => List.mem_range.mp hb) hq (by simp only [List.length_range]; omega) hsp2
  rw [hfold]
  have hlen : (dispatched (s.mmu.interrupt_flag &&& s.mmu.interrupt_enable)
      (List.range 5)).length = pending_count (s.mmu.interrupt_flag &&& s.mmu.interrupt_enable) :=
    pending_count_range5 (s.mmu.interrupt_flag &&& s.mmu.interrupt_enable)
  obtain ⟨hv, hf⟩ := dispatched_range5_closed (s.mmu.interrupt_flag &&& s.mmu.interrupt_enable)
    s.pc s.mmu.interrupt_flag hif
  have hne : ¬ (dispatched (s.mmu.interrupt_flag &&& s.mmu.interrupt_enable)
      (List.range 5)).length = 0 := by omega
  simp only [Option.map_some']
  rw [hpc, hsp, hime, hhalt, hifl, hv, hf, if_neg hne, if_neg hne, hlen, Nat.zero_add]

/-- C1 (amended): when IME is set and at least one bit of IF & IE is
pending, handle_interrupt dispatches EVERY pending bit in ascending order:
it clears IME and halt, clears ALL pending IF bits, decrements SP by 2 per
pending bit, and leaves PC at the vector of the HIGHEST-numbered pending
bit; the number of dispatches equals the number of pending bits.  (Stated
over a quiet MMU with the stack in HRAM so the pushes land in memory that
accepts them.) -/
theorem c1_dispatches_all_pending (s : Cpu)
    (hq : QuietMmu s.mmu) (hif : s.mmu.interrupt_flag < 256)
    (hsp1 : 0xff8a ≤ s.sp) (hsp2 : s.sp ≤ 0xffff)
    (hp : 1 ≤ pending_count (s.mmu.interrupt_flag &&& s.mmu.interrupt_enable)) :
    (Cpu.handle_interrupt s).map
        (fun p => (p.1.pc, p.1.sp, p.1.ime, p.1.halt, p.1.mmu.interrupt_flag, p.2)) =
      some
        (highest_vector (s.mmu.interrupt_flag &&& s.mmu.interrupt_enable) s.pc,
         s.sp - 2 * pending_count (s.mmu.interrupt_flag &&& s.mmu.interrupt_enable),
         false, false,
         s.mmu.interrupt_flag &&&
           (0xff ^^^ (s.mmu.interrupt_flag &&& s.mmu.interrupt_enable &&& 0x1f)),
         pending_count (s.mmu.interrupt_flag &&& s.mmu.interrupt_enable)) :=
  handle_interrupt_closed s hq hif hsp1 hsp2 hp
/-- C1 witness: the amended theorem applied at cexMultiPending (IF & IE =
0x05), where it yields PC = 0x50, SP = 0xfffe - 4, IF = 0 and 2 dispatches. -/
theorem c1_witness :
    (Cpu.handle_interrupt cexMultiPending).map
        (fun p => (p.1.pc, p.1.sp, p.1.ime, p.1.halt, p.1.mmu.interrupt_flag, p.2)) =
      some (0x50, 0xfffa, false, false, 0, 2) := by
  have h := c1_dispatches_all_pending cexMultiPending
    (by refine ⟨?_, rfl, rfl, rfl, rfl, rfl⟩; decide) (by decide) (by decide) (by decide)
    (by decide)
  rw [h]
  rfl

/-- Advancing the wrapping 32-bit clock by k and subtracting the old value
gives back k. -/
theorem wsub32_add (c k : Nat) (hk : k < 2 ^ 32) : wsub32 (u32 (c + k)) c = k := by
  unfold wsub32 u32
  omega

/-- C2 counterexample: cexEiPending is about to execute EI (opcode 0xfb)
with IF = IE = 0x01 already pending and IME clear.  The very same step()
call that executes EI already dispatches the VBlank interrupt: the dispatch
count is 1, PC ends at the vector 0x40 instead of 0x101, and SP drops by 2. -/
theorem c2_counterexample :
    (Cpu.step cexEiPending).map (fun p => (p.1.pc, p.1.sp, p.2.2.2)) =
        some (0x40, 0xfffc, 1) ∧ (1 : Nat) ≠ 0 :=
  ⟨rfl, by decide⟩

/-- C2 (amended): executing EI while IF & IE is already nonzero dispatches
an interrupt DURING THE SAME step() call (the dispatch count of that very
step equals the number of pending bits, at least one), and PC leaves the
step at the vector of the highest pending bit, not at the instruction after
EI. -/
theorem c2_ei_dispatches_same_step (s : Cpu)
    (hop : s.mmu.read_byte s.pc = some 0xfb)
    (hh : s.halt = false)
    (hq : QuietMmu s.mmu) (hif : s.mmu.interrupt_flag < 256)
    (hsp1 : 0xff8a ≤ s.sp) (hsp2 : s.sp ≤ 0xffff)
    (hp : 1 ≤ pending_count (s.mmu.interrupt_flag &&& s.mmu.interrupt_enable)) :
    (Cpu.step s).map (fun p => (p.1.pc, p.2.2.2)) =
      some (highest_vector (s.mmu.interrupt_flag &&& s.mmu.interrupt_enable) (u16 (s.pc + 1)),
            pending_count (s.mmu.interrupt_flag &&& s.mmu.interrupt_enable)) := by
  unfold Cpu.step
  rw [hop]
  dsimp only []
  rw [hh]
  rw [if_neg (show ¬ (false = true) from by decide)]
  have hexec : Cpu.exec 0xfb (s.add_program_count 1) = some (s.add_program_count 1).ei := rfl
  rw [hexec]
  unfold Cpu.add_program_count Cpu.ei Cpu.add_clock
  dsimp only []
  rw [wsub32_add s.clock 4 (by norm_num)]
  rw [show u8 4 = 4 from rfl]
  rw [mmu_update_quiet s.mmu 4 hq]
  dsimp only []
  rw [if_pos rfl]
  obtain ⟨p, hps, hproj⟩ := Option.map_eq_some'.mp
    (handle_interrupt_closed
      { s with
        pc := u16 (s.pc + 1)
        ime := true
        clock := u32 (s.clock + 4)
        mmu := { s.mmu with timer := { s.mmu.timer with counter := u16 (s.mmu.timer.counter + 4) } } }
      ⟨hq.1, hq.2.1, hq.2.2.1, hq.2.2.2.1, hq.2.2.2.2.1, hq.2.2.2.2.2⟩
      hif hsp1 hsp2 hp)
  dsimp only [] at hps hproj
  rw [hps]
  dsimp only [Option.map_some']
  have h1 := congrArg (fun t => t.1) hproj
  have h2 := congrArg (fun t => t.2.2.2.2.2) hproj
  dsimp only [] at h1 h2
  rw [h1, h2]

/-- C2 witness: the amended theorem applied at cexEiPending, where the step
that executes EI dispatches the pending VBlank interrupt itself: PC = 0x40
and dispatch count 1. -/
theorem c2_witness :
    (Cpu.step cexEiPending).map (fun p => (p.1.pc, p.2.2.2)) = some (0x40, 1) := by
  have h := c2_ei_dispatches_same_step cexEiPending rfl rfl
    (by refine ⟨?_, rfl, rfl, rfl, rfl, rfl⟩; decide) (by decide) (by decide) (by decide)
    (by decide)
  rw [h]
  rfl

/-- NOP advances the clock by 4. -/
theorem nop_clock (s : Cpu) : (Cpu.nop s).clock = u32 (s.clock + 4) := rfl

/-- HALT advances the clock by 4 (whether or not it sets the halt flag). -/
theorem halt_instr_clock (s : Cpu) : (Cpu.halt_instr s).clock = u32 (s.clock + 4) := by
  unfold Cpu.halt_instr Cpu.add_clock
  by_cases hi : s.ime = true <;> simp [hi]

/-- DI advances the clock by 4. -/
theorem di_clock (s : Cpu) : (Cpu.di s).clock = u32 (s.clock + 4) := rfl

/-- EI advances the clock by 4. -/
theorem ei_clock (s : Cpu) : (Cpu.ei s).clock = u32 (s.clock + 4) := rfl

/-- Cpu::write_word leaves the clock unchanged. -/
theorem write_word_clock (s : Cpu) (a v : Nat) (s1 : Cpu)
    (h : Cpu.write_word s a v = some s1) : s1.clock = s.clock := by
  unfold Cpu.write_word at h
  dsimp only [] at h
  cases h1 : s.mmu.write_byte a (v &&& 0xff) with
  | none => rw [h1] at h; exact Option.noConfusion h
  | some m1 =>
    rw [h1] at h
    dsimp only [] at h
    cases h2 : m1.write_byte (u16 (a + 1)) (u8 (v >>> 8)) with
    | none => rw [h2] at h; exact Option.noConfusion h
    | some m2 =>
      rw [h2] at h
      dsimp only [] at h
      injection h with h
      subst h
      rfl

set_option maxRecDepth 4096 in
/-- A successful PUSH advances the clock by 16. -/
theorem push_nn_clock (s : Cpu) (rp : RegPair) (s2 : Cpu)
    (h : Cpu.push_nn s rp = some s2) : s2.clock = u32 (s.clock + 16) := by
  unfold Cpu.push_nn at h
  dsimp only [] at h
  cases rp <;>
    (dsimp only [] at h
     split at h
     · exact Option.noConfusion h
     · rename_i s1 hw
       have h2 : s2 = s1.add_clock 16 := (Option.some.inj h).symm
       have h3 := write_word_clock _ _ _ _ hw
       dsimp only [] at h3
       rw [h2]
       show u32 (s1.clock + 16) = u32 (s.clock + 16)
       rw [h3])

/-- A successful POP advances the clock by 12. -/
theorem pop_nn_clock (s : Cpu) (rp : RegPair) (s2 : Cpu)
    (h : Cpu.pop_nn s rp = some s2) : s2.clock = u32 (s.clock + 12) := by
  unfold Cpu.pop_nn at h
  cases h1 : s.mmu.read_byte s.sp with
  | none => rw [h1] at h; exact Option.noConfusion h
  | some lo =>
    rw [h1] at h
    dsimp only [] at h
    cases h2 : s.mmu.read_byte (u16 (s.sp + 1)) with
    | none => rw [h2] at h; exact Option.noConfusion h
    | some hi =>
      rw [h2] at h
      dsimp only [] at h
      cases rp <;>
        (injection h with h
         subst h
         rfl)

set_option maxHeartbeats 1000000 in
/-- Every opcode of the embedded subset advances the wrapping 32-bit clock
by at most 16 cycles. -/
theorem exec_clock_delta (opcode : Nat) (s s2 : Cpu) (h : Cpu.exec opcode s = some s2) :
    wsub32 s2.clock s.clock ≤ 16 := by
  unfold Cpu.exec at h
  split_ifs at h
  · have h2 : s2 = Cpu.nop s := (Option.some.inj h).symm
    rw [h2]
    show wsub32 (u32 (s.clock + 4)) s.clock ≤ 16
    rw [wsub32_add s.clock 4 (by norm_num)]
    norm_num
  · have h2 : s2 = Cpu.halt_instr s := (Option.some.inj h).symm
    rw [h2, halt_instr_clock, wsub32_add s.clock 4 (by norm_num)]
    norm_num
  · rw [pop_nn_clock s .bc s2 h, wsub32_add s.clock 12 (by norm_num)]
    norm_num
  · rw [push_nn_clock s .bc s2 h, wsub32_add s.clock 16 (by norm_num)]
  · rw [pop_nn_clock s .de s2 h, wsub32_add s.clock 12 (by norm_num)]
    norm_num
  · rw [push_nn_clock s .de s2 h, wsub32_add s.clock 16 (by norm_num)]
  · rw [pop_nn_clock s .hl s2 h, wsub32_add s.clock 12 (by norm_num)]
    norm_num
  · rw [push_nn_clock s .hl s2 h, wsub32_add s.clock 16 (by norm_num)]
  · rw [pop_nn_clock s .af s2 h, wsub32_add s.clock 12 (by norm_num)]
    norm_num
  · have h2 : s2 = Cpu.di s := (Option.some.inj h).symm
    rw [h2]
    show wsub32 (u32 (s.clock + 4)) s.clock ≤ 16
    rw [wsub32_add s.clock 4 (by norm_num)]
    norm_num
  · rw [push_nn_clock s .af s2 h, wsub32_add s.clock 16 (by norm_num)]
  · have h2 : s2 = Cpu.ei s := (Option.some.inj h).symm
    rw [h2]
    show wsub32 (u32 (s.clock + 4)) s.clock ≤ 16
    rw [wsub32_add s.clock 4 (by norm_num)]
    norm_num

/-- Shared: one step() delivers to the MMU (and hence to the PPU and the
Timer) the cycles it returns plus 20 per dispatched interrupt. -/
theorem step_delivered_balance (s s1 : Cpu) (r d k : Nat)
    (h : Cpu.step s = some (s1, r, d, k)) : d = r + 20 * k := by
  unfold Cpu.step at h
  split at h
  · exact Option.noConfusion h
  · rename_i opcode hrb
    dsimp only [] at h
    split at h
    · split at h
      · exact Option.noConfusion h
      · rename_i p hp
        injection h with h
        have hr := congrArg (fun t => t.2.1) h
        have hd := congrArg (fun t => t.2.2.1) h
        have hk := congrArg (fun t => t.2.2.2) h
        dsimp only [] at hr hd hk
        rw [← hr, ← hd, ← hk]
        rfl
    · split at h
      · exact Option.noConfusion h
      · rename_i s2 hx
        split at h
        · exact Option.noConfusion h
        · rename_i p hp
          injection h with h
          have hr := congrArg (fun t => t.2.1) h
          have hd := congrArg (fun t => t.2.2.1) h
          have hk := congrArg (fun t => t.2.2.2) h
          dsimp only [] at hr hd hk
          have he : wsub32 s2.clock (s.add_program_count 1).clock ≤ 16 :=
            exec_clock_delta opcode _ s2 hx
          rw [← hr, ← hd, ← hk]
          unfold u8 u16
          omega

/-- C3 counterexample: running one step from cexMultiPending (two pending
interrupts get dispatched) returns 4 cycles to the caller, but the PPU and
the Timer observe 44 ticks: the timer's internal counter, initially 0, ends
at 44, not at 4.  The returned-cycle sum does not equal the observed delta. -/
theorem c3_counterexample :
    (Cpu.run_steps cexMultiPending 1).map
        (fun t => (t.2.1, t.2.2.1, t.1.mmu.timer.counter)) = some (4, 44, 44) ∧
      (4 : Nat) ≠ 44 :=
  ⟨rfl, by decide⟩

/-- C3 (amended): over any completed run of N steps, the total tick count
delivered to Mmu.update (what the PPU and the Timer observe) equals the sum
of the cycle counts returned by step() PLUS 20 cycles per dispatched
interrupt; the 20-cycle interrupt-service cost is delivered to the
peripherals but excluded from the returned cycle counts. -/
theorem c3_cycle_balance_amended (s : Cpu) (n : Nat) (s2 : Cpu) (bigR bigD bigK : Nat)
    (h : Cpu.run_steps s n = some (s2, bigR, bigD, bigK)) : bigD = bigR + 20 * bigK := by
  induction n generalizing s s2 bigR bigD bigK with
  | zero =>
    unfold Cpu.run_steps at h
    injection h with h
    have hr := congrArg (fun t => t.2.1) h
    have hd := congrArg (fun t => t.2.2.1) h
    have hk := congrArg (fun t => t.2.2.2) h
    dsimp only [] at hr hd hk
    omega
  | succ m ih =>
    unfold Cpu.run_steps at h
    split at h
    · exact Option.noConfusion h
    · rename_i t1 r1 d1 k1 hq
      split at h
      · exact Option.noConfusion h
      · rename_i t2 rr dd kk hq2
        injection h with h
        have hr := congrArg (fun t => t.2.1) h
        have hd := congrArg (fun t => t.2.2.1) h
        have hk := congrArg (fun t => t.2.2.2) h
        dsimp only [] at hr hd hk
        have h1 := step_delivered_balance s t1 r1 d1 k1 hq
        have h2 := ih t1 t2 rr dd kk hq2
        omega

/-- C3 witness: the amended balance applied to the 1-step run from
cexMultiPending, which returns 4 cycles, delivers 44 ticks and dispatches 2
interrupts: 44 = 4 + 20 * 2. -/
theorem c3_witness :
    (Cpu.run_steps cexMultiPending 1).map (fun t => (t.2.1, t.2.2.1, t.2.2.2)) =
        some (4, 44, 2) ∧ (44 : Nat) = 4 + 20 * 2 :=
  ⟨rfl, c3_cycle_balance_amended cexMultiPending 1 _ 4 44 2 rfl⟩

/-- An OAM address splits as a sum. -/
theorem oam_lor (i : Nat) (hi : i < 256) : (0xfe00 : Nat) ||| i = 0xfe00 + i := by
  have h := lor_low8 0xfe i hi
  norm_num at h
  exact h

/-- Writing an OAM byte through the bus in PPU mode 0 or 1 stores it at its
offset. -/
theorem mmu_write_oam (dmaf : Mmu → Nat → Option Mmu) (mm : Mmu) (i tmp : Nat)
    (hi : i < 0xa0) (hm : mm.ppu.stat &&& 3 = 0 ∨ mm.ppu.stat &&& 3 = 1) :
    Mmu.write_byte_aux dmaf mm (0xfe00 ||| i) tmp =
      some { mm with ppu := { mm.ppu with oam := setf mm.ppu.oam i tmp } } := by
  rw [oam_lor i (by omega)]
  unfold Mmu.write_byte_aux Ppu.write
  repeat rw [if_neg (by omega)]
  rw [if_pos (by omega)]
  repeat rw [if_neg (by omega)]
  rw [if_pos (by omega)]
  rw [if_pos hm]
  rw [show (0xfe00 + i) &&& 0xff = i from by rw [and_0xff]; omega]
  rfl

/-- Ppu::read at an address below the OAM region does not depend on the OAM
contents. -/
theorem ppu_read_ignores_oam (p : Ppu) (f : Nat → Nat) (a : Nat) (ha : a < 0xfe00) :
    Ppu.read { p with oam := f } a = Ppu.read p a := by
  unfold Ppu.read Ppu.get_vbk
  dsimp only []
  by_cases h1 : 0x8000 ≤ a ∧ a ≤ 0x9fff
  · rw [if_pos h1, if_pos h1]
  · rw [if_neg h1, if_neg h1]
    by_cases h2 : 0xfe00 ≤ a ∧ a ≤ 0xfe9f
    · omega
    · rw [if_neg h2, if_neg h2]

/-- Bus reads below the OAM region do not depend on the OAM contents. -/
theorem mmu_read_low_ignores_oam (mm : Mmu) (f : Nat → Nat) (a : Nat) (ha : a < 0xfe00) :
    Mmu.read_byte { mm with ppu := { mm.ppu with oam := f } } a = Mmu.read_byte mm a := by
  unfold Mmu.read_byte
  dsimp only []
  rw [ppu_read_ignores_oam mm.ppu f a ha]

/-- Reading an OAM byte through the bus in PPU mode 0 or 1 returns it. -/
theorem mmu_read_oam (mm : Mmu) (i : Nat) (hi : i < 0xa0)
    (hm : mm.ppu.stat &&& 3 = 0 ∨ mm.ppu.stat &&& 3 = 1) :
    Mmu.read_byte mm (0xfe00 ||| i) = some (mm.ppu.oam i) := by
  rw [oam_lor i (by omega)]
  unfold Mmu.read_byte Ppu.read
  repeat rw [if_neg (by omega)]
  rw [if_pos (by omega)]
  repeat rw [if_neg (by omega)]
  rw [if_pos (by omega)]
  rw [if_pos hm]
  rw [show (0xfe00 + i) &&& 0xff = i from by rw [and_0xff]; omega]

/-- Reading back a left fold of pointwise updates at distinct indices. -/
theorem foldl_setf_get (g : Nat → Nat) (f0 : Nat → Nat) (n i : Nat) (hi : i < n) :
    ((List.range n).foldl (fun f j => setf f j (g j)) f0) i = g i := by
  induction n with
  | zero => omega
  | succ k ih =>
    rw [List.range_succ, List.foldl_append, List.foldl_cons, List.foldl_nil]
    by_cases hik : i = k
    · subst hik
      simp [setf]
    · simp only [setf]
      rw [if_neg hik]
      exact ih (by omega)

/-- Shared: the first n iterations of the Mmu::do_dma copy loop, in PPU
mode 0 or 1, accumulate exactly the pointwise OAM updates with the source
bytes. -/
theorem dma_fold (m : Mmu) (v : Nat) (src_fn : Nat → Nat)
    (hv : v ≤ 0xf1)
    (hm : m.ppu.stat &&& 3 = 0 ∨ m.ppu.stat &&& 3 = 1)
    (hsrc : ∀ i, i < 0xa0 → Mmu.read_byte m ((v <<< 8) ||| i) = some (src_fn i))
    (n : Nat) :
    n ≤ 0xa0 →
    (List.range n).foldlM (fun acc i =>
      match Mmu.read_byte acc ((v <<< 8) ||| i) with
      | none => none
      | some tmp => Mmu.write_byte_aux (fun _ _ => none) acc (0xfe00 ||| i) tmp) m =
    some { m with ppu := { m.ppu with
           oam := (List.range n).foldl (fun f i => setf f i (src_fn i)) m.ppu.oam } } := by
  induction n with
  | zero => intro _; rfl
  | succ k ih =>
    intro hn
    have haddr : (v <<< 8) ||| k = v * 256 + k := lor_low8 v k (by omega)
    rw [List.range_succ, List.foldlM_append, ih (by omega), List.foldl_append,
        List.foldl_cons, List.foldl_nil]
    simp only [Option.bind_eq_bind, Option.some_bind, List.foldlM_cons, List.foldlM_nil]
    rw [mmu_read_low_ignores_oam m
      ((List.range k).foldl (fun f i => setf f i (src_fn i)) m.ppu.oam)
      ((v <<< 8) ||| k) (by rw [haddr]; omega)]
    rw [hsrc k (by omega)]
    dsimp only []
    rw [mmu_write_oam (fun _ _ => none)
      { m with ppu := { m.ppu with
          oam := (List.range k).foldl (fun f i => setf f i (src_fn i)) m.ppu.oam } }
      k (src_fn k) (by omega) hm]
    rfl

set_option maxRecDepth 100000 in
/-- C7 counterexample: in PPU mode 3 (cexDmaMmu, WRAM filled with 5s), the
DMA triggered by writing 0xc0 to 0xFF46 drops every OAM write: reading
0xFE00 afterwards yields 0xff (the mode-3 read gate), not the source byte 5
readable at 0xC000.  The claimed copy does NOT hold for every PPU mode. -/
theorem c7_counterexample :
    (Mmu.write_byte cexDmaMmu 0xff46 0xc0).bind (fun m => m.read_byte 0xfe00) = some 0xff ∧
      cexDmaMmu.read_byte 0xc000 = some 5 ∧ (0xff : Nat) ≠ 5 :=
  ⟨rfl, rfl, by decide⟩

/-- C7 (amended): writing v <= 0xF1 to 0xFF46 while the PPU is in mode 0
(HBlank) or mode 1 (VBlank) copies the 160 source bytes into OAM: the write
succeeds and afterwards every byte readable at 0xFE00+i equals the byte
readable at (v<<8)+i.  In modes 2 and 3 the Ppu::write OAM gate drops the
copy, so the mode hypothesis is necessary (see the counterexample). -/
theorem c7_dma_copy_amended (m : Mmu) (v : Nat) (src_fn : Nat → Nat)
    (hv : v ≤ 0xf1)
    (hm : m.ppu.stat &&& 3 = 0 ∨ m.ppu.stat &&& 3 = 1)
    (hsrc : ∀ i, i < 0xa0 → Mmu.read_byte m ((v <<< 8) ||| i) = some (src_fn i)) :
    ∃ m2, Mmu.write_byte m 0xff46 v = some m2 ∧
      ∀ i, i < 0xa0 → m2.read_byte (0xfe00 ||| i) = m.read_byte ((v <<< 8) ||| i) := by
  refine ⟨{ m with ppu := { m.ppu with
      oam := (List.range 0xa0).foldl (fun f i => setf f i (src_fn i)) m.ppu.oam } }, ?_, ?_⟩
  · show Mmu.write_byte_aux Mmu.do_dma m 0xff46 v = some _
    unfold Mmu.write_byte_aux
    repeat rw [if_neg (by decide)]
    rw [if_pos rfl]
    unfold Mmu.do_dma
    rw [if_pos hv]
    exact dma_fold m v src_fn hv hm hsrc 0xa0 (le_refl _)
  · intro i hi
    rw [hsrc i hi, mmu_read_oam { m with ppu := { m.ppu with
        oam := (List.range 0xa0).foldl (fun f i => setf f i (src_fn i)) m.ppu.oam } } i hi
      (by exact hm)]
    dsimp only []
    rw [foldl_setf_get src_fn m.ppu.oam 0xa0 i hi]

set_option maxRecDepth 100000 in
/-- C7 witness: the amended theorem applied to mmuDmaW (mode 0, all-zero
memory) with v = 0xc0. -/
theorem c7_witness :
    ∃ m2, Mmu.write_byte mmuDmaW 0xff46 0xc0 = some m2 ∧
      ∀ i, i < 0xa0 → m2.read_byte (0xfe00 ||| i) = mmuDmaW.read_byte ((0xc0 <<< 8) ||| i) :=
  c7_dma_copy_amended mmuDmaW 0xc0 (fun _ => 0) (by decide) (Or.inl rfl) (by decide)
